import Mathlib

/-!
# Software draw unit of the rendering core

A shallow embedding of `src/draw/sw/lv_draw_sw.c` (the software render unit:
layer and unit creation, dispatch, worker iteration, renderer selection, buffer
copy and buffer clearing) and of the DPI scaling helpers of
`src/core/lv_disp.h`.

Heap objects are addressed by natural numbers (one address space per C type),
the heap is a record of total maps, and every call that leaves the translation
unit is recorded as an event carrying the heap it was issued on. A call that
does not come back to its caller (a failed check that stops the program, a store
through NULL or outside a buffer, a call through a NULL pointer) ends in a
`Fault` instead of a result.
-/

namespace LvDrawSw

/-! ## Data model -/

/-- Address of a `lv_draw_task_t`. -/
abbrev TaskPtr := Nat

/-- Address of a `lv_layer_t`. -/
abbrev LayerPtr := Nat

/-- Address of a `lv_draw_sw_unit_t` (equally of its leading `base_unit`). -/
abbrev UnitPtr := Nat

/-- The rectangle type `lv_area_t`; both corners are inclusive. -/
structure lv_area_t where
  x1 : Int
  y1 : Int
  x2 : Int
  y2 : Int
deriving DecidableEq, Repr

/-- Lifecycle state of a draw task (`LV_DRAW_TASK_STATE_*`; the source spells
the middle one `IN_PRGRESS`). -/
inductive lv_draw_task_state_t where
  | QUEUED
  | IN_PRGRESS
  | READY
deriving DecidableEq, Repr

/-- Type tag of a draw task (`LV_DRAW_TASK_TYPE_*`). The four tags named in
`exectue_drawing` are constructors of their own; every other value of the C
enum is `OTHER tag`. -/
inductive lv_draw_task_type_t where
  | RECTANGLE
  | LABEL
  | IMAGE
  | LAYER
  | OTHER (tag : Nat)
deriving DecidableEq, Repr

/-- The fields of `lv_draw_task_t` that the software unit reads or writes.
`draw_dsc` is the address of the type specific descriptor. -/
structure lv_draw_task_t where
  type : lv_draw_task_type_t
  draw_dsc : Nat
  area : lv_area_t
  clip_area : lv_area_t
  state : lv_draw_task_state_t
deriving DecidableEq, Repr

/-- Values of the `buffer_copy` callback: the one copy routine of this file. -/
inductive BufferCopyFn where
  | lv_draw_sw_buffer_copy
deriving DecidableEq, Repr

/-- Values of the `buffer_convert` callback: the one convert routine of this file. -/
inductive BufferConvertFn where
  | lv_draw_sw_buffer_convert
deriving DecidableEq, Repr

/-- Values of the `buffer_clear` callback: the one clear routine of this file. -/
inductive BufferClearFn where
  | lv_draw_sw_buffer_clear
deriving DecidableEq, Repr

/-- The layer record `lv_layer_t`. `buf = none` is the NULL buffer pointer; an
allocated buffer is the list of its bytes. A callback field is `none` when the
pointer is NULL. -/
structure lv_layer_t where
  buf : Option (List Nat)
  buf_area : lv_area_t
  clip_area : lv_area_t
  color_format : Nat
  buffer_copy : Option BufferCopyFn
  buffer_convert : Option BufferConvertFn
  buffer_clear : Option BufferClearFn
  next : Option LayerPtr
deriving DecidableEq, Repr

/-- The dispatch entry points a unit can carry; this file defines one. -/
inductive DispatchFn where
  | lv_draw_sw_dispatch
deriving DecidableEq, Repr

/-- The generic unit header `lv_draw_unit_t`. `clip_area = some t` is the
pointer `&t->clip_area` into task `t`. -/
structure lv_draw_unit_t where
  dispatch : Option DispatchFn
  next : Option UnitPtr
  layer : Option LayerPtr
  clip_area : Option TaskPtr
deriving DecidableEq, Repr

/-- The software unit `lv_draw_sw_unit_t`; `task_act = none` is NULL (idle). -/
structure lv_draw_sw_unit_t where
  base_unit : lv_draw_unit_t
  task_act : Option TaskPtr
  idx : Nat
deriving DecidableEq, Repr

/-- The heap: every task, layer and unit by address. -/
structure Mem where
  tasks : TaskPtr → lv_draw_task_t
  layers : LayerPtr → lv_layer_t
  units : UnitPtr → lv_draw_sw_unit_t

/-- The four renderers declared under GLOBAL PROTOTYPES. -/
inductive Renderer where
  | lv_draw_sw_rect
  | lv_draw_sw_label
  | lv_draw_sw_img
  | lv_draw_sw_layer
deriving DecidableEq, Repr

/-- Calls that leave the translation unit, in program order. Each carries what
the callee can observe: its arguments and, where the callee reads the heap, the
heap at the moment of the call. -/
inductive Event where
  | lv_malloc (size : Nat) (succeeded : Bool)
  | buffer_clear (layer : LayerPtr) (fn : Option BufferClearFn) (pre : Mem)
  | render (r : Renderer) (u : UnitPtr) (dsc : Nat) (coords : lv_area_t) (pre : Mem)
  | lv_thread_sync_signal (u : UnitPtr)
  | lv_thread_sync_wait (u : UnitPtr)
  | lv_draw_dispatch_request (pre : Mem)

/-- Ways in which a call does not return to its caller. -/
inductive Fault where
  | assert_malloc
  | null_write
  | null_call
  | out_of_range
deriving DecidableEq, Repr

/-- What the translation unit takes from the rest of the library.

* `LV_USE_OS` selects the `#if LV_USE_OS` branches.
* `LV_USE_ASSERT_MALLOC` tells whether `LV_ASSERT_MALLOC(p)` is compiled in. The
  macro is defined outside this file: when compiled in and `p` is NULL it runs
  the assert handler, which by default never returns (`Fault.assert_malloc`);
  when compiled out it is empty.
* `lv_color_format_get_size` gives the bytes per pixel of a colour format.
* `lv_draw_get_next_available_task m layer` is the result of
  `lv_draw_get_next_available_task(layer, NULL)` on heap `m`; it is a query and
  leaves the heap as it is.
* `lv_malloc m n` is `none` when the allocation of `n` bytes fails, and
  otherwise the (unspecified) previous contents of the block, by byte offset.
* `paint r u dsc coords m bytes` is the content of the buffer of the layer
  bound to unit `u` after renderer `r` ran on heap `m`; a renderer draws pixels
  and writes nothing else. -/
structure Env where
  LV_USE_OS : Bool
  LV_USE_ASSERT_MALLOC : Bool
  lv_color_format_get_size : Nat → Nat
  lv_draw_get_next_available_task : Mem → LayerPtr → Option TaskPtr
  lv_malloc : Mem → Nat → Option (Nat → Nat)
  paint : Renderer → UnitPtr → Nat → lv_area_t → Mem → List Nat → List Nat

/-- Result of a call: the return value, the heap on return and the external
calls made, oldest first. -/
structure Outcome where
  ret : Int
  mem : Mem
  events : List Event

/-! ## Area helpers (`lv_area.h`) -/

/-- `lv_area_get_width`: `x2 - x1 + 1`. -/
def lv_area_get_width (a : lv_area_t) : Int := a.x2 - a.x1 + 1

/-- `lv_area_get_height`: `y2 - y1 + 1`. -/
def lv_area_get_height (a : lv_area_t) : Int := a.y2 - a.y1 + 1

/-- `lv_area_get_size`: number of pixels, width times height, as the `uint32_t`
the function returns. -/
def lv_area_get_size (a : lv_area_t) : Int :=
  (lv_area_get_width a * lv_area_get_height a) % 2 ^ 32

/-- `lv_area_move`: shift both corners by `(ofs_x, ofs_y)`. -/
def lv_area_move (a : lv_area_t) (ofs_x ofs_y : Int) : lv_area_t :=
  { x1 := a.x1 + ofs_x, y1 := a.y1 + ofs_y, x2 := a.x2 + ofs_x, y2 := a.y2 + ofs_y }

/-- The bytes of a buffer after those at offsets `off .. off + len - 1` were
set to zero. -/
def zero_bytes : List Nat → Int → Int → List Nat
  | [], _, _ => []
  | b :: bs, off, len =>
    (if off ≤ 0 ∧ 0 < off + len then 0 else b) :: zero_bytes bs (off - 1) len

/-- `lv_memzero(buf + off, len)`, where `buf` is a buffer pointer (`none` for
NULL) and `len` the value of the `int` expression passed as length. A length of
0 stores nothing. Otherwise a NULL `buf` is a store through NULL, and a range
that does not lie inside the buffer (which includes every negative `len`, a
huge `size_t`) is a store outside it; inside the buffer the bytes become zero. -/
def lv_memzero (buf : Option (List Nat)) (off len : Int) : Except Fault (Option (List Nat)) :=
  if len = 0 then Except.ok buf
  else
    match buf with
    | none => Except.error Fault.null_write
    | some b =>
      if 0 ≤ off ∧ 0 < len ∧ off + len ≤ (b.length : Int) then
        Except.ok (some (zero_bytes b off len))
      else Except.error Fault.out_of_range

/-! ## Heap updates -/

/-- Store `s` into `t->state`. -/
def Mem.set_task_state (m : Mem) (t : TaskPtr) (s : lv_draw_task_state_t) : Mem :=
  { m with tasks := Function.update m.tasks t { m.tasks t with state := s } }

/-- Store into the unit record at `u`. -/
def Mem.set_unit (m : Mem) (u : UnitPtr) (v : lv_draw_sw_unit_t) : Mem :=
  { m with units := Function.update m.units u v }

/-- Store into the layer record at `l`. -/
def Mem.set_layer (m : Mem) (l : LayerPtr) (v : lv_layer_t) : Mem :=
  { m with layers := Function.update m.layers l v }

/-! ## The functions of `lv_draw_sw.c` -/

/-- The `for(y = a.y1; y <= a.y2; y++)` loop of `lv_draw_sw_buffer_clear` with
`rows` iterations left: zero `len` bytes at the cursor `off`, then advance the
cursor by `len`. -/
def clear_loop : Option (List Nat) → Int → Int → Nat → Except Fault (Option (List Nat))
  | buf, _, _, 0 => Except.ok buf
  | buf, off, len, rows + 1 =>
    match lv_memzero buf off len with
    | Except.error f => Except.error f
    | Except.ok buf1 => clear_loop buf1 (off + len) len rows

/-- `lv_draw_sw_buffer_clear(layer)`, lines 261-277. The clip area is made
relative to the buffer area, `w` is the width of that relative clip area, the
cursor starts at `a.y1 * w * px_size + a.x1 * px_size` and every row clears
`w * px_size` bytes and advances by `w * px_size`. There is no NULL check:
with a NULL buffer the first row that clears at least one byte stores through
NULL. Coordinates and offsets are unbounded integers. -/
def lv_draw_sw_buffer_clear (env : Env) (layer : lv_layer_t) : Except Fault lv_layer_t :=
  let px_size : Int := env.lv_color_format_get_size layer.color_format
  let a := lv_area_move layer.clip_area (-layer.buf_area.x1) (-layer.buf_area.y1)
  let w := lv_area_get_width a
  let off := a.y1 * w * px_size + a.x1 * px_size
  match clear_loop layer.buf off (w * px_size) (a.y2 - a.y1 + 1).toNat with
  | Except.error f => Except.error f
  | Except.ok buf => Except.ok { layer with buf := buf }

/-- The indirect call `layer->buffer_clear(layer)` of line 134; the pointer is
not checked, so a NULL callback is a call through NULL. -/
def call_buffer_clear (env : Env) (layer : LayerPtr) (m : Mem) : Except Fault Mem :=
  match (m.layers layer).buffer_clear with
  | none => Except.error Fault.null_call
  | some BufferClearFn.lv_draw_sw_buffer_clear =>
    match lv_draw_sw_buffer_clear env (m.layers layer) with
    | Except.error f => Except.error f
    | Except.ok l => Except.ok (m.set_layer layer l)

/-- One renderer call `r((lv_draw_unit_t *)u, dsc, coords)`: the call is
recorded with the heap it runs on, and the buffer of the layer bound to `u` gets
the painted content. -/
def call_renderer (env : Env) (r : Renderer) (u : UnitPtr) (dsc : Nat) (coords : lv_area_t)
    (m : Mem) : Mem × List Event :=
  (match (m.units u).base_unit.layer with
    | none => m
    | some l =>
      m.set_layer l { m.layers l with buf := (m.layers l).buf.map (env.paint r u dsc coords m) },
   [Event.render r u dsc coords m])

/-- `exectue_drawing(u)`, lines 301-320: the `switch` on `u->task_act->type`.
The function is only called with `task_act` set; for `task_act = NULL` (a NULL
dereference in C) nothing is done. -/
def exectue_drawing (env : Env) (u : UnitPtr) (m : Mem) : Mem × List Event :=
  match (m.units u).task_act with
  | none => (m, [])
  | some t =>
    match (m.tasks t).type with
    | lv_draw_task_type_t.RECTANGLE =>
      call_renderer env Renderer.lv_draw_sw_rect u (m.tasks t).draw_dsc (m.tasks t).area m
    | lv_draw_task_type_t.LABEL =>
      call_renderer env Renderer.lv_draw_sw_label u (m.tasks t).draw_dsc (m.tasks t).area m
    | lv_draw_task_type_t.IMAGE =>
      call_renderer env Renderer.lv_draw_sw_img u (m.tasks t).draw_dsc (m.tasks t).area m
    | lv_draw_task_type_t.LAYER =>
      call_renderer env Renderer.lv_draw_sw_layer u (m.tasks t).draw_dsc (m.tasks t).area m
    | lv_draw_task_type_t.OTHER _ => (m, [])

/-- The argument of `lv_malloc` in line 131,
`lv_area_get_size(&layer->buf_area) * lv_color_format_get_size(...)`, a product
of a `uint32_t` and a promoted `uint8_t`: it is computed modulo `2 ^ 32`. -/
def dispatch_alloc_size (env : Env) (layer : lv_layer_t) : Nat :=
  ((lv_area_get_size layer.buf_area).toNat *
    env.lv_color_format_get_size layer.color_format) % 2 ^ 32

/-- Lines 129-135 of `lv_draw_sw_dispatch`: when `layer->buf` is NULL, request
the buffer, check the result with `LV_ASSERT_MALLOC`, store it in `layer->buf`
and call `layer->buffer_clear(layer)`. When the allocation fails the check, if
compiled in, stops the program; if compiled out, NULL is stored and the clear
callback runs on the NULL buffer. The result is the heap and the external calls
made. -/
def dispatch_alloc (env : Env) (layer : LayerPtr) (m : Mem) : Except Fault (Mem × List Event) :=
  match (m.layers layer).buf with
  | some _ => Except.ok (m, [])
  | none =>
    let size := dispatch_alloc_size env (m.layers layer)
    let buf : Option (List Nat) := (env.lv_malloc m size).map fun old => (List.range size).map old
    if buf.isNone ∧ env.LV_USE_ASSERT_MALLOC = true then Except.error Fault.assert_malloc
    else
      let m1 := m.set_layer layer { m.layers layer with buf := buf }
      match call_buffer_clear env layer m1 with
      | Except.error f => Except.error f
      | Except.ok m2 =>
        Except.ok (m2,
          [Event.lv_malloc size buf.isSome,
           Event.buffer_clear layer (m1.layers layer).buffer_clear m1])

/-- Lines 140-143 and 150-153: mark `t` in progress and bind the unit to the
layer, to `&t->clip_area` and to `t`. -/
def dispatch_claim (draw_unit : UnitPtr) (layer : LayerPtr) (t : TaskPtr) (m : Mem) : Mem :=
  let m1 := m.set_task_state t lv_draw_task_state_t.IN_PRGRESS
  m1.set_unit draw_unit
    { m1.units draw_unit with
      base_unit := { (m1.units draw_unit).base_unit with layer := some layer, clip_area := some t }
      task_act := some t }

/-- The two statements after `exectue_drawing` (lines 157-158 and 292-293):
`u->task_act->state = LV_DRAW_TASK_STATE_READY; u->task_act = NULL;`, with
`task_act` read from the heap as the C code does. -/
def finish_task (u : UnitPtr) (m : Mem) : Mem :=
  let m1 :=
    match (m.units u).task_act with
    | some t => m.set_task_state t lv_draw_task_state_t.READY
    | none => m
  m1.set_unit u { m1.units u with task_act := none }

/-- `lv_draw_sw_dispatch(draw_unit, layer)`, lines 117-165, for both settings of
`LV_USE_OS`. `lv_draw_dispatch_request()` and `lv_thread_sync_signal()` are
notifications to code outside this file and are recorded as events. The call
does not return when the allocation step of lines 129-135 does not. -/
def lv_draw_sw_dispatch (env : Env) (draw_unit : UnitPtr) (layer : LayerPtr) (m : Mem) :
    Except Fault Outcome :=
  match (m.units draw_unit).task_act with
  | some _ => Except.ok { ret := 0, mem := m, events := [] }
  | none =>
    match env.lv_draw_get_next_available_task m layer with
    | none => Except.ok { ret := -1, mem := m, events := [] }
    | some t =>
      match dispatch_alloc env layer m with
      | Except.error f => Except.error f
      | Except.ok a =>
        let m2 := dispatch_claim draw_unit layer t a.1
        if env.LV_USE_OS then
          Except.ok
            { ret := 1, mem := m2, events := a.2 ++ [Event.lv_thread_sync_signal draw_unit] }
        else
          let d := exectue_drawing env draw_unit m2
          let m3 := finish_task draw_unit d.1
          Except.ok
            { ret := 1, mem := m3,
              events := a.2 ++ d.2 ++ [Event.lv_draw_dispatch_request m3] }

/-- One pass of the outer `while(1)` of `render_thread_cb`, lines 284-297, as
one step. With `task_act = NULL` the worker stays in `lv_thread_sync_wait` and
nothing else happens; otherwise it draws, marks the task ready, clears
`task_act` and requests a dispatch. -/
def render_thread_cb (env : Env) (u : UnitPtr) (m : Mem) : Mem × List Event :=
  match (m.units u).task_act with
  | none => (m, [Event.lv_thread_sync_wait u])
  | some _ =>
    let d := exectue_drawing env u m
    let m3 := finish_task u d.1
    (m3, d.2 ++ [Event.lv_draw_dispatch_request m3])

/-! ## DPI scaling (`lv_disp.h`) -/

/-- Value of a C `int` expression: two's complement on 32 bits. -/
def wrap_int (x : Int) : Int := (x + 2 ^ 31) % 2 ^ 32 - 2 ^ 31

/-- The macro `LV_MAX(a, b)`: `a > b ? a : b`. -/
def LV_MAX (a b : Int) : Int := if a > b then a else b

/-- The macro `_LV_DPX_CALC(dpi, n)` of line 585,
`((n) == 0 ? 0 : LV_MAX((((dpi) * (n) + 80) / 160), 1))`, evaluated in `int`;
`/` is C division, which truncates. -/
def _LV_DPX_CALC (dpi n : Int) : Int :=
  if n = 0 then 0 else LV_MAX (Int.tdiv (wrap_int (wrap_int (dpi * n) + 80)) 160) 1

/-- `lv_disp_dpx(disp, n)`, lines 610-613. `lv_disp_get_dpi` is only declared in
the header and is a parameter; `disp = none` is the NULL display. `lv_coord_t`
is taken to be as wide as `int`. -/
def lv_disp_dpx (lv_disp_get_dpi : Option Nat → Int) (disp : Option Nat) (n : Int) : Int :=
  _LV_DPX_CALC (lv_disp_get_dpi disp) n

/-- `lv_dpx(n)`, lines 596-599: `LV_DPX(n)`, that is
`_LV_DPX_CALC(lv_disp_get_dpi(NULL), n)`. -/
def lv_dpx (lv_disp_get_dpi : Option Nat → Int) (n : Int) : Int :=
  _LV_DPX_CALC (lv_disp_get_dpi none) n

/-! ## Vocabulary of the statements -/

/-- The event is a renderer call. -/
def Event.is_render : Event → Bool
  | Event.render _ _ _ _ _ => true
  | _ => false

/-- The event is a call of `lv_draw_dispatch_request`. -/
def Event.is_dispatch_request : Event → Bool
  | Event.lv_draw_dispatch_request _ => true
  | _ => false

/-- The event is a wake-up of a worker by `lv_thread_sync_signal`. -/
def Event.is_sync_signal : Event → Bool
  | Event.lv_thread_sync_signal _ => true
  | _ => false

/-- Position of a state in the order QUEUED, IN_PROGRESS, READY. -/
def lv_draw_task_state_t.rank : lv_draw_task_state_t → Nat
  | lv_draw_task_state_t.QUEUED => 0
  | lv_draw_task_state_t.IN_PRGRESS => 1
  | lv_draw_task_state_t.READY => 2

/-- Contract of the queue query taken from its description: it only ever offers
a task that is still queued. -/
def QueuedOnly (env : Env) : Prop :=
  ∀ m layer t, env.lv_draw_get_next_available_task m layer = some t →
    (m.tasks t).state = lv_draw_task_state_t.QUEUED

/-- One step of the system: some unit is offered some layer and the call
returns, or the worker of some unit makes one pass of its loop. -/
inductive Step (env : Env) : Mem → Mem → Prop where
  | dispatch (u : UnitPtr) (layer : LayerPtr) (m : Mem) (r : Outcome)
      (h : lv_draw_sw_dispatch env u layer m = Except.ok r) : Step env m r.mem
  | worker (u : UnitPtr) (m : Mem) : Step env m (render_thread_cb env u m).1

/-- The lazy allocation of lines 129-135 has what it needs to complete: the
buffer of the layer exists already; or `lv_malloc` succeeds for the requested
size, the clear callback is `lv_draw_sw_buffer_clear`, the clip area is a
non-empty area inside the buffer area, and the byte size of the buffer area
fits 32 bits. -/
def AllocReady (env : Env) (layer : LayerPtr) (m : Mem) : Prop :=
  (m.layers layer).buf ≠ none ∨
    ((env.lv_malloc m (dispatch_alloc_size env (m.layers layer))).isSome = true ∧
      (m.layers layer).buffer_clear = some BufferClearFn.lv_draw_sw_buffer_clear ∧
      (m.layers layer).buf_area.x1 ≤ (m.layers layer).clip_area.x1 ∧
      (m.layers layer).clip_area.x1 ≤ (m.layers layer).clip_area.x2 ∧
      (m.layers layer).clip_area.x2 ≤ (m.layers layer).buf_area.x2 ∧
      (m.layers layer).buf_area.y1 ≤ (m.layers layer).clip_area.y1 ∧
      (m.layers layer).clip_area.y1 ≤ (m.layers layer).clip_area.y2 ∧
      (m.layers layer).clip_area.y2 ≤ (m.layers layer).buf_area.y2 ∧
      lv_area_get_width (m.layers layer).buf_area * lv_area_get_height (m.layers layer).buf_area *
        (env.lv_color_format_get_size (m.layers layer).color_format : Int) < 2 ^ 32)

/-- Every unit is idle. -/
def AllIdle (m : Mem) : Prop := ∀ u, (m.units u).task_act = none

/-- Ownership invariant: a held task is in progress, and held by one unit only. -/
def Owned (m : Mem) : Prop :=
  (∀ u t, (m.units u).task_act = some t →
      (m.tasks t).state = lv_draw_task_state_t.IN_PRGRESS) ∧
  (∀ u v t, (m.units u).task_act = some t → (m.units v).task_act = some t → u = v)

/-! ## Sample inputs -/

/-- A small area, two pixels wide and one high. -/
def sample_area : lv_area_t := { x1 := 0, y1 := 0, x2 := 1, y2 := 0 }

/-- A heap with task 0 queued (a rectangle), task 1 in progress on unit 1, every
other task ready, every unit but unit 1 idle, and layers without a buffer whose
clip area is the left pixel of a two pixel buffer area. -/
def sample_mem : Mem :=
  { tasks := fun t =>
      { type := if t = 0 then lv_draw_task_type_t.RECTANGLE else lv_draw_task_type_t.LABEL
        draw_dsc := 40 + t
        area := sample_area
        clip_area := sample_area
        state :=
          if t = 0 then lv_draw_task_state_t.QUEUED
          else if t = 1 then lv_draw_task_state_t.IN_PRGRESS
          else lv_draw_task_state_t.READY }
    layers := fun _ =>
      { buf := none
        buf_area := sample_area
        clip_area := { x1 := 0, y1 := 0, x2 := 0, y2 := 0 }
        color_format := 0
        buffer_copy := some BufferCopyFn.lv_draw_sw_buffer_copy
        buffer_convert := some BufferConvertFn.lv_draw_sw_buffer_convert
        buffer_clear := some BufferClearFn.lv_draw_sw_buffer_clear
        next := none }
    units := fun u =>
      { base_unit :=
          { dispatch := some DispatchFn.lv_draw_sw_dispatch
            next := none
            layer := if u = 1 then some 0 else none
            clip_area := if u = 1 then some 1 else none }
        task_act := if u = 1 then some 1 else none
        idx := u } }

/-- An environment with the allocation check compiled in, one byte per pixel, a
queue query that offers task 0 while it is queued, an allocator that succeeds
and hands out blocks filled with the byte 7, and renderers that leave the
pixels as they are. -/
def sample_env (os : Bool) : Env :=
  { LV_USE_OS := os
    LV_USE_ASSERT_MALLOC := true
    lv_color_format_get_size := fun _ => 1
    lv_draw_get_next_available_task := fun m _ =>
      if (m.tasks 0).state = lv_draw_task_state_t.QUEUED then some 0 else none
    lv_malloc := fun _ _ => some fun _ => 7
    paint := fun _ _ _ _ _ b => b }

/-- The sample heap with every unit idle and tasks 0 and 1 queued. -/
def idle_mem : Mem :=
  { sample_mem with
    tasks := fun t =>
      { sample_mem.tasks t with
        state :=
          if t ≤ 1 then lv_draw_task_state_t.QUEUED else lv_draw_task_state_t.READY }
    units := fun u =>
      { sample_mem.units u with
        base_unit := { (sample_mem.units u).base_unit with layer := none, clip_area := none }
        task_act := none } }

/-- The sample environment with an allocator that always fails; `check` tells
whether `LV_ASSERT_MALLOC` is compiled in. -/
def failing_env (os : Bool) (check : Bool) : Env :=
  { sample_env os with LV_USE_ASSERT_MALLOC := check, lv_malloc := fun _ _ => none }

/-! ## Displays, layer lists and unit lists -/

/-- The fields of `lv_disp_t` that `lv_draw_sw.c` reads or writes: the colour
format, the head of the layer list and the head of the draw unit list. -/
structure lv_disp_t where
  color_format : Nat
  layer_head : Option LayerPtr
  draw_unit_head : Option UnitPtr
deriving DecidableEq, Repr

/-- A singly linked list in the heap: starting at `head` and following `next`
one meets exactly the addresses `l`, in this order, and then NULL. -/
def chain (next : Nat → Option Nat) : Option Nat → List Nat → Prop
  | none, [] => True
  | some p, q :: rest => p = q ∧ chain next (next p) rest
  | none, _ :: _ => False
  | some _, [] => False

/-- The layer list of a display: the layers reachable from `head`. -/
def layer_list (m : Mem) (head : Option LayerPtr) (ls : List LayerPtr) : Prop :=
  chain (fun p => (m.layers p).next) head ls

/-- The draw unit list of a display: the units reachable from `head`. -/
def unit_list (m : Mem) (head : Option UnitPtr) (us : List UnitPtr) : Prop :=
  chain (fun p => (m.units p).base_unit.next) head us

/-- An `lv_area_t` after `lv_memzero`. -/
def lv_area_zero : lv_area_t := { x1 := 0, y1 := 0, x2 := 0, y2 := 0 }

/-- A layer record after `lv_memzero(layer, sizeof(lv_layer_t))`: every pointer
is NULL and every number is 0. -/
def lv_layer_zero : lv_layer_t :=
  { buf := none
    buf_area := lv_area_zero
    clip_area := lv_area_zero
    color_format := 0
    buffer_copy := none
    buffer_convert := none
    buffer_clear := none
    next := none }

/-- A unit record after `lv_memzero(draw_sw_unit, sizeof(lv_draw_sw_unit_t))`. -/
def lv_draw_sw_unit_zero : lv_draw_sw_unit_t :=
  { base_unit := { dispatch := none, next := none, layer := none, clip_area := none }
    task_act := none
    idx := 0 }

/-- The loop `while(tail->next) tail = tail->next;` of `lv_draw_sw_init_ctx`,
line 78, with `fuel` tests of the loop condition allowed; `none` when the fuel
is used up before a layer without successor is met. -/
def layer_tail (m : Mem) : Nat → LayerPtr → Option LayerPtr
  | 0, _ => none
  | fuel + 1, tail =>
    match (m.layers tail).next with
    | none => some tail
    | some n => layer_tail m fuel n

/-- The layer record written by lines 70-74 of `lv_draw_sw_init_ctx`: zeroed,
then `color_format` and the three callbacks are set. -/
def sw_layer_new (color_format : Nat) : lv_layer_t :=
  { lv_layer_zero with
    color_format := color_format
    buffer_copy := some BufferCopyFn.lv_draw_sw_buffer_copy
    buffer_convert := some BufferConvertFn.lv_draw_sw_buffer_convert
    buffer_clear := some BufferClearFn.lv_draw_sw_buffer_clear }

/-- What `lv_draw_sw_init_ctx` hands back: the returned layer pointer, the
display record and the heap. -/
structure InitCtxResult where
  ret : Option LayerPtr
  disp : lv_disp_t
  mem : Mem

/-- `lv_draw_sw_init_ctx(disp)`, lines 66-86. `layer` is the result of
`lv_malloc(sizeof(lv_layer_t))` (`none` for NULL). The new record is zeroed and
gets the colour format of the display and the three callbacks of this file; it
is then stored in `next` of the last layer, found by walking from
`disp->layer_head`, or in `disp->layer_head` when the display has no layer.
`LV_ASSERT_MALLOC` does not change the flow, and stores through a NULL `layer`
are not represented. The outer `none` means that the walk did not finish within
`fuel` steps. -/
def lv_draw_sw_init_ctx (fuel : Nat) (layer : Option LayerPtr) (disp : lv_disp_t) (m : Mem) :
    Option InitCtxResult :=
  let m1 :=
    match layer with
    | none => m
    | some l => m.set_layer l (sw_layer_new disp.color_format)
  match disp.layer_head with
  | some head =>
    match layer_tail m1 fuel head with
    | none => none
    | some tail =>
      some { ret := layer, disp := disp,
             mem := m1.set_layer tail { m1.layers tail with next := layer } }
  | none => some { ret := layer, disp := { disp with layer_head := layer }, mem := m1 }

/-- `lv_draw_sw_deinit_ctx(disp, layer)`, lines 88-92: the display is unused and
the layer record is zeroed. -/
def lv_draw_sw_deinit_ctx (disp : lv_disp_t) (layer : LayerPtr) (m : Mem) : lv_disp_t × Mem :=
  (disp, m.set_layer layer lv_layer_zero)

/-- The unit record written by lines 99-103 of `lv_draw_unit_sw_create` in pass
`i`: zeroed, then the dispatch entry point, `idx = i` and the link to the
former head `next` are set. -/
def sw_unit_new (i : Nat) (next : Option UnitPtr) : lv_draw_sw_unit_t :=
  { lv_draw_sw_unit_zero with
    base_unit :=
      { lv_draw_sw_unit_zero.base_unit with
        dispatch := some DispatchFn.lv_draw_sw_dispatch
        next := next }
    idx := i }

/-- State of the loop of `lv_draw_unit_sw_create`: the display, the heap and the
units for which `lv_thread_sync_init` and `lv_thread_init` (with
`render_thread_cb` as entry point) were called, oldest first. -/
structure UnitCreateState where
  disp : lv_disp_t
  mem : Mem
  threads : List (Option UnitPtr)

/-- The `for(i = 0; i < cnt; i++)` loop of `lv_draw_unit_sw_create`, lines
97-110, with `remaining = cnt - i` passes left. `alloc i` is the result of the
`lv_malloc` of pass `i`. The new record is zeroed, gets the dispatch entry
point and `idx = i`, is linked in front of `disp->draw_unit_head` and becomes
the head; with `LV_USE_OS` a worker thread is started for it. Stores through a
NULL pointer are not represented. -/
def unit_create_loop (env : Env) (alloc : Nat → Option UnitPtr) :
    Nat → Nat → UnitCreateState → UnitCreateState
  | 0, _, s => s
  | remaining + 1, i, s =>
    let draw_sw_unit := alloc i
    let m1 :=
      match draw_sw_unit with
      | none => s.mem
      | some u => s.mem.set_unit u (sw_unit_new i s.disp.draw_unit_head)
    unit_create_loop env alloc remaining (i + 1)
      { disp := { s.disp with draw_unit_head := draw_sw_unit }
        mem := m1
        threads := s.threads ++ (if env.LV_USE_OS then [draw_sw_unit] else []) }

/-- `lv_draw_unit_sw_create(disp, cnt)`, lines 94-111. -/
def lv_draw_unit_sw_create (env : Env) (alloc : Nat → Option UnitPtr) (disp : lv_disp_t)
    (cnt : Nat) (m : Mem) : UnitCreateState :=
  unit_create_loop env alloc cnt 0 { disp := disp, mem := m, threads := [] }

/-! ## Buffer copy -/

/-- `lv_memcpy(dest + doff, src + soff, len)` on buffers given by their bytes:
byte `doff + j` of `dest` becomes byte `soff + j` of `src` for `0 ≤ j < len`.
Offsets outside either buffer are not represented: such a byte of `dest` is
kept. -/
def lv_memcpy : List Nat → Int → List Nat → Int → Int → List Nat
  | [], _, _, _, _ => []
  | b :: bs, doff, src, soff, len =>
    (if doff ≤ 0 ∧ 0 < doff + len ∧ 0 ≤ soff - doff then
        (src[(soff - doff).toNat]?).getD b
      else b) :: lv_memcpy bs (doff - 1) src soff len

/-- The `for(y = dest_area->y1; y <= dest_area->y2; y++)` loop of
`lv_draw_sw_buffer_copy` with `rows` passes left: copy `len` bytes from the
source cursor to the destination cursor, then advance the cursors by `dstep`
and `sstep`. -/
def copy_loop (dest src : List Nat) (doff soff dstep sstep len : Int) : Nat → List Nat
  | 0 => dest
  | rows + 1 =>
    copy_loop (lv_memcpy dest doff src soff len) src (doff + dstep) (soff + sstep) dstep sstep
      len rows

/-- `lv_draw_sw_buffer_copy`, lines 167-191; the result is the destination
buffer. The cursors start at `stride * px_size * y1 + x1 * px_size`, a line is
`lv_area_get_width(dest_area) * px_size` bytes long, and after every line the
cursors advance by `dest_stride` and `src_stride` (lines 188-189). -/
def lv_draw_sw_buffer_copy (env : Env) (layer : lv_layer_t)
    (dest_buf : List Nat) (dest_stride : Int) (dest_area : lv_area_t)
    (src_buf : List Nat) (src_stride : Int) (src_area : lv_area_t) : List Nat :=
  let px_size : Int := env.lv_color_format_get_size layer.color_format
  let doff := dest_stride * px_size * dest_area.y1 + dest_area.x1 * px_size
  let soff := src_stride * px_size * src_area.y1 + src_area.x1 * px_size
  let line_length := lv_area_get_width dest_area * px_size
  copy_loop dest_buf src_buf doff soff dest_stride src_stride line_length
    (dest_area.y2 - dest_area.y1 + 1).toNat

/-! ## Sample displays, lists and buffers -/

/-- The sample heap with layer 3 linked to layer 5 and unit 1 linked to unit 4. -/
def listed_mem : Mem :=
  { sample_mem with
    layers := fun p => { sample_mem.layers p with next := if p = 3 then some 5 else none }
    units := fun u =>
      { sample_mem.units u with
        base_unit :=
          { (sample_mem.units u).base_unit with next := if u = 1 then some 4 else none } } }

/-- A display with colour format 2, layers 3 and 5, and units 1 and 4. -/
def sample_disp : lv_disp_t :=
  { color_format := 2, layer_head := some 3, draw_unit_head := some 1 }

/-- The idle sample heap with every task of a type outside the four known ones. -/
def other_mem : Mem :=
  { idle_mem with
    tasks := fun t => { idle_mem.tasks t with type := lv_draw_task_type_t.OTHER 9 } }

/-- The sample environment with two bytes per pixel. -/
def two_byte_env : Env :=
  { sample_env false with lv_color_format_get_size := fun _ => 2 }

/-- A layer with an allocated two by two buffer of one byte pixels, every byte 7,
whose clip area is the right column. -/
def column_layer : lv_layer_t :=
  { sample_mem.layers 0 with
    buf := some [7, 7, 7, 7]
    buf_area := { x1 := 0, y1 := 0, x2 := 1, y2 := 1 }
    clip_area := { x1 := 1, y1 := 0, x2 := 1, y2 := 1 } }

/-! ## Basic facts about the sample inputs and heap updates -/

/-- The sample queue query offers queued tasks only. -/
theorem sample_env_queued_only (os : Bool) : QueuedOnly (sample_env os) := by
  intro m layer t h
  simp only [sample_env] at h
  split at h
  · rename_i hs
    cases h
    exact hs
  · cases h

@[simp]
theorem set_task_state_units (m : Mem) (t : TaskPtr) (s : lv_draw_task_state_t) :
    (m.set_task_state t s).units = m.units := rfl

@[simp]
theorem set_task_state_layers (m : Mem) (t : TaskPtr) (s : lv_draw_task_state_t) :
    (m.set_task_state t s).layers = m.layers := rfl

@[simp]
theorem set_task_state_tasks (m : Mem) (t : TaskPtr) (s : lv_draw_task_state_t) :
    (m.set_task_state t s).tasks = Function.update m.tasks t { m.tasks t with state := s } := rfl

@[simp]
theorem set_unit_tasks (m : Mem) (u : UnitPtr) (v : lv_draw_sw_unit_t) :
    (m.set_unit u v).tasks = m.tasks := rfl

@[simp]
theorem set_unit_layers (m : Mem) (u : UnitPtr) (v : lv_draw_sw_unit_t) :
    (m.set_unit u v).layers = m.layers := rfl

@[simp]
theorem set_unit_units (m : Mem) (u : UnitPtr) (v : lv_draw_sw_unit_t) :
    (m.set_unit u v).units = Function.update m.units u v := rfl

@[simp]
theorem set_layer_tasks (m : Mem) (l : LayerPtr) (v : lv_layer_t) :
    (m.set_layer l v).tasks = m.tasks := rfl

@[simp]
theorem set_layer_units (m : Mem) (l : LayerPtr) (v : lv_layer_t) :
    (m.set_layer l v).units = m.units := rfl

@[simp]
theorem set_layer_layers (m : Mem) (l : LayerPtr) (v : lv_layer_t) :
    (m.set_layer l v).layers = Function.update m.layers l v := rfl

/-- A renderer call writes layer records only. -/
theorem call_renderer_tasks (env : Env) (r : Renderer) (u : UnitPtr) (dsc : Nat)
    (c : lv_area_t) (m : Mem) : (call_renderer env r u dsc c m).1.tasks = m.tasks := by
  unfold call_renderer
  split <;> rfl

theorem call_renderer_units (env : Env) (r : Renderer) (u : UnitPtr) (dsc : Nat)
    (c : lv_area_t) (m : Mem) : (call_renderer env r u dsc c m).1.units = m.units := by
  unfold call_renderer
  split <;> rfl

/-- Renderer selection writes layer records only. -/
theorem exectue_drawing_tasks (env : Env) (u : UnitPtr) (m : Mem) :
    (exectue_drawing env u m).1.tasks = m.tasks := by
  unfold exectue_drawing
  split
  · rfl
  · split <;> first | rfl | exact call_renderer_tasks _ _ _ _ _ _

theorem exectue_drawing_units (env : Env) (u : UnitPtr) (m : Mem) :
    (exectue_drawing env u m).1.units = m.units := by
  unfold exectue_drawing
  split
  · rfl
  · split <;> first | rfl | exact call_renderer_units _ _ _ _ _ _

/-- Every external call of `exectue_drawing` is a renderer call on behalf of
`u`, with the descriptor and area of the held task, issued on the input heap. -/
theorem exectue_drawing_events (env : Env) (u : UnitPtr) (m : Mem) :
    ∀ e ∈ (exectue_drawing env u m).2, ∃ r t, (m.units u).task_act = some t ∧
      e = Event.render r u (m.tasks t).draw_dsc (m.tasks t).area m := by
  intro e he
  unfold exectue_drawing at he
  split at he
  · simp at he
  · rename_i t ht
    split at he <;> simp [call_renderer] at he <;> exact ⟨_, t, ht, he⟩

/-- For the four tags named in the `switch`, `exectue_drawing` makes one call. -/
theorem exectue_drawing_events_length (env : Env) (u : UnitPtr) (m : Mem) (t : TaskPtr)
    (ht : (m.units u).task_act = some t)
    (hk : ∀ tag, (m.tasks t).type ≠ lv_draw_task_type_t.OTHER tag) :
    (exectue_drawing env u m).2.length = 1 := by
  unfold exectue_drawing
  rw [ht]
  simp only
  split <;> first | rfl | (rename_i tag h; exact absurd h (hk tag))

/-- After the claim the unit holds `t`, is bound to the layer and to the clip
area of `t`, and `t` is in progress. -/
theorem dispatch_claim_spec (u : UnitPtr) (l : LayerPtr) (t : TaskPtr) (m : Mem) :
    ((dispatch_claim u l t m).units u).task_act = some t ∧
      ((dispatch_claim u l t m).units u).base_unit.layer = some l ∧
      ((dispatch_claim u l t m).units u).base_unit.clip_area = some t ∧
      ((dispatch_claim u l t m).tasks t).state = lv_draw_task_state_t.IN_PRGRESS := by
  simp [dispatch_claim]

/-- Completion of the held task: it is ready and the unit is idle. -/
theorem finish_task_spec (u : UnitPtr) (t : TaskPtr) (m : Mem)
    (ht : (m.units u).task_act = some t) :
    ((finish_task u m).tasks t).state = lv_draw_task_state_t.READY ∧
      ((finish_task u m).units u).task_act = none := by
  simp [finish_task, ht]

/-! ## Clearing a buffer -/

theorem zero_bytes_length (b : List Nat) (off len : Int) :
    (zero_bytes b off len).length = b.length := by
  induction b generalizing off with
  | nil => rfl
  | cons x xs ih => simp [zero_bytes, ih]

/-- Byte `i` after zeroing a range: zero inside the range, unchanged outside. -/
theorem zero_bytes_getElem? (b : List Nat) (off len : Int) (i : Nat) :
    (zero_bytes b off len)[i]? =
      (b[i]?).map fun x => if off ≤ (i : Int) ∧ (i : Int) < off + len then 0 else x := by
  induction b generalizing off i with
  | nil => simp [zero_bytes]
  | cons x xs ih =>
    cases i with
    | zero => simp [zero_bytes]
    | succ j =>
      simp only [zero_bytes, List.getElem?_cons_succ, ih]
      congr 1
      funext y
      have h1 : (off - 1 ≤ (j : Int)) ↔ (off ≤ ((j + 1 : Nat) : Int)) := by
        push_cast; omega
      have h2 : ((j : Int) < off - 1 + len) ↔ (((j + 1 : Nat) : Int) < off + len) := by
        push_cast; omega
      simp only [h1, h2]

/-- Zeroing an empty range changes nothing. -/
theorem zero_bytes_len_zero (b : List Nat) (off : Int) : zero_bytes b off 0 = b := by
  induction b generalizing off with
  | nil => rfl
  | cons x xs ih =>
    have : ¬ (off ≤ 0 ∧ 0 < off + 0) := by omega
    simp [zero_bytes, this, ih]

/-- `lv_memzero` on an allocated buffer with the range inside it returns. -/
theorem lv_memzero_in_range (b : List Nat) (off len : Int) (h0 : 0 ≤ off) (hl : 0 ≤ len)
    (hr : off + len ≤ (b.length : Int)) :
    lv_memzero (some b) off len = Except.ok (some (zero_bytes b off len)) := by
  unfold lv_memzero
  by_cases hz : len = 0
  · rw [if_pos hz, hz, zero_bytes_len_zero]
  · rw [if_neg hz]
    have : 0 ≤ off ∧ 0 < len ∧ off + len ≤ (b.length : Int) := ⟨h0, by omega, hr⟩
    simp only [if_pos this]

/-- The clear loop on an allocated buffer, with a row length `len ≥ 0` and all
rows inside the buffer: it returns, and it has zeroed the contiguous range
`off .. off + rows * len - 1` and nothing else. -/
theorem clear_loop_ok (len : Int) (hlen : 0 ≤ len) (rows : Nat) :
    ∀ (b : List Nat) (off : Int), 0 ≤ off → off + (rows : Int) * len ≤ (b.length : Int) →
      ∃ b', clear_loop (some b) off len rows = Except.ok (some b') ∧ b'.length = b.length ∧
        ∀ i : Nat, b'[i]? = (b[i]?).map fun x =>
          if off ≤ (i : Int) ∧ (i : Int) < off + (rows : Int) * len then 0 else x := by
  induction rows with
  | zero =>
    intro b off _ _
    refine ⟨b, rfl, rfl, ?_⟩
    intro i
    simp only [Nat.cast_zero, zero_mul, add_zero]
    have : ¬ (off ≤ (i : Int) ∧ (i : Int) < off) := by omega
    simp [this]
  | succ k ih =>
    intro b off h0 hr
    have hk : 0 ≤ (k : Int) * len := mul_nonneg (Int.ofNat_nonneg k) hlen
    have hs : ((k + 1 : Nat) : Int) * len = (k : Int) * len + len := by
      push_cast; ring
    rw [hs] at hr
    obtain ⟨b', hb', hlen', hget⟩ := ih (zero_bytes b off len) (off + len) (by omega)
      (by rw [zero_bytes_length]; omega)
    refine ⟨b', ?_, by rw [hlen', zero_bytes_length], ?_⟩
    · simp only [clear_loop, lv_memzero_in_range b off len h0 hlen (by omega)]
      exact hb'
    · intro i
      rw [hget i, zero_bytes_getElem?, Option.map_map, hs]
      congr 1
      funext y
      simp only [Function.comp]
      by_cases h1 : off ≤ (i : Int) ∧ (i : Int) < off + len
      · have h3 : off ≤ (i : Int) ∧ (i : Int) < off + ((k : Int) * len + len) := by omega
        simp [h1, h3]
      · by_cases h2 : off + len ≤ (i : Int) ∧ (i : Int) < off + len + (k : Int) * len
        · have h3 : off ≤ (i : Int) ∧ (i : Int) < off + ((k : Int) * len + len) := by omega
          simp [h2, h3]
        · have h3 : ¬ (off ≤ (i : Int) ∧ (i : Int) < off + ((k : Int) * len + len)) := by omega
          simp [h1, h2, h3]

/-- `lv_draw_sw_buffer_clear` returns on a layer whose buffer holds
area(buf_area) pixels and whose clip area is a non-empty area inside the buffer
area; it touches the bytes of the buffer only. -/
theorem lv_draw_sw_buffer_clear_inside (env : Env) (layer : lv_layer_t) (b : List Nat)
    (hb : layer.buf = some b)
    (hx1 : layer.buf_area.x1 ≤ layer.clip_area.x1) (hx : layer.clip_area.x1 ≤ layer.clip_area.x2)
    (hx2 : layer.clip_area.x2 ≤ layer.buf_area.x2)
    (hy1 : layer.buf_area.y1 ≤ layer.clip_area.y1) (hy : layer.clip_area.y1 ≤ layer.clip_area.y2)
    (hy2 : layer.clip_area.y2 ≤ layer.buf_area.y2)
    (hlen : (b.length : Int) = lv_area_get_width layer.buf_area *
      lv_area_get_height layer.buf_area * (env.lv_color_format_get_size layer.color_format : Int)) :
    ∃ b', lv_draw_sw_buffer_clear env layer = Except.ok { layer with buf := some b' } ∧
      b'.length = b.length := by
  have hpx : (0 : Int) ≤ (env.lv_color_format_get_size layer.color_format : Int) :=
    Int.ofNat_nonneg _
  simp only [lv_area_get_width, lv_area_get_height] at hlen
  have hrows : (((layer.clip_area.y2 + -layer.buf_area.y1 -
      (layer.clip_area.y1 + -layer.buf_area.y1) + 1).toNat : Nat) : Int) =
      layer.clip_area.y2 - layer.clip_area.y1 + 1 := by
    rw [Int.toNat_of_nonneg (by omega)]; ring
  have hbound : (layer.clip_area.y1 + -layer.buf_area.y1) *
        (layer.clip_area.x2 + -layer.buf_area.x1 - (layer.clip_area.x1 + -layer.buf_area.x1) + 1) *
        (env.lv_color_format_get_size layer.color_format : Int) +
      (layer.clip_area.x1 + -layer.buf_area.x1) *
        (env.lv_color_format_get_size layer.color_format : Int) +
      (layer.clip_area.y2 - layer.clip_area.y1 + 1) *
        ((layer.clip_area.x2 + -layer.buf_area.x1 - (layer.clip_area.x1 + -layer.buf_area.x1) + 1) *
          (env.lv_color_format_get_size layer.color_format : Int)) ≤ (b.length : Int) := by
    rw [hlen]
    have key : (layer.clip_area.y1 - layer.buf_area.y1 + (layer.clip_area.y2 - layer.clip_area.y1 + 1)) *
          (layer.clip_area.x2 - layer.clip_area.x1 + 1) +
        (layer.clip_area.x1 - layer.buf_area.x1) ≤
        (layer.buf_area.x2 - layer.buf_area.x1 + 1) * (layer.buf_area.y2 - layer.buf_area.y1 + 1) := by
      nlinarith [mul_nonneg (show (0 : Int) ≤ layer.buf_area.y2 - layer.clip_area.y2 by omega)
          (show (0 : Int) ≤ layer.clip_area.x2 - layer.clip_area.x1 + 1 by omega),
        mul_nonneg (show (0 : Int) ≤ layer.buf_area.y2 - layer.buf_area.y1 by omega)
          (show (0 : Int) ≤ layer.buf_area.x2 - layer.clip_area.x2 +
            (layer.clip_area.x1 - layer.buf_area.x1) by omega),
        show (0 : Int) ≤ layer.buf_area.x2 - layer.clip_area.x2 by omega]
    nlinarith [mul_le_mul_of_nonneg_right key hpx]
  have hoff : 0 ≤ (layer.clip_area.y1 + -layer.buf_area.y1) *
        (layer.clip_area.x2 + -layer.buf_area.x1 - (layer.clip_area.x1 + -layer.buf_area.x1) + 1) *
        (env.lv_color_format_get_size layer.color_format : Int) +
      (layer.clip_area.x1 + -layer.buf_area.x1) *
        (env.lv_color_format_get_size layer.color_format : Int) := by
    have h1 : (0 : Int) ≤ layer.clip_area.y1 + -layer.buf_area.y1 := by omega
    have h2 : (0 : Int) ≤ layer.clip_area.x2 + -layer.buf_area.x1 -
        (layer.clip_area.x1 + -layer.buf_area.x1) + 1 := by omega
    have h3 : (0 : Int) ≤ layer.clip_area.x1 + -layer.buf_area.x1 := by omega
    exact add_nonneg (mul_nonneg (mul_nonneg h1 h2) hpx) (mul_nonneg h3 hpx)
  have hl : 0 ≤ (layer.clip_area.x2 + -layer.buf_area.x1 -
      (layer.clip_area.x1 + -layer.buf_area.x1) + 1) *
      (env.lv_color_format_get_size layer.color_format : Int) :=
    mul_nonneg (by omega) hpx
  obtain ⟨b', hb', hlen', _⟩ := clear_loop_ok _ hl
    (layer.clip_area.y2 + -layer.buf_area.y1 - (layer.clip_area.y1 + -layer.buf_area.y1) + 1).toNat
    b _ hoff (by rw [hrows]; exact hbound)
  refine ⟨b', ?_, hlen'⟩
  simp only [lv_draw_sw_buffer_clear, lv_area_move, lv_area_get_width, hb, hb']

/-- `lv_draw_sw_buffer_clear` on a layer whose clip area is its whole, non-empty
buffer area and whose buffer holds area(buf_area) pixels: it returns and every
byte of the buffer is zero. -/
theorem lv_draw_sw_buffer_clear_whole (env : Env) (layer : lv_layer_t) (b : List Nat)
    (hb : layer.buf = some b) (hclip : layer.clip_area = layer.buf_area)
    (hx : layer.buf_area.x1 ≤ layer.buf_area.x2) (hy : layer.buf_area.y1 ≤ layer.buf_area.y2)
    (hlen : (b.length : Int) = lv_area_get_width layer.buf_area *
      lv_area_get_height layer.buf_area * (env.lv_color_format_get_size layer.color_format : Int)) :
    lv_draw_sw_buffer_clear env layer =
      Except.ok { layer with buf := some (List.replicate b.length 0) } := by
  have hpx : (0 : Int) ≤ (env.lv_color_format_get_size layer.color_format : Int) :=
    Int.ofNat_nonneg _
  simp only [lv_area_get_width, lv_area_get_height] at hlen
  have hrows : (((layer.buf_area.y2 + -layer.buf_area.y1 -
      (layer.buf_area.y1 + -layer.buf_area.y1) + 1).toNat : Nat) : Int) =
      layer.buf_area.y2 - layer.buf_area.y1 + 1 := by
    rw [Int.toNat_of_nonneg (by omega)]; ring
  have hoff : (layer.buf_area.y1 + -layer.buf_area.y1) *
        (layer.buf_area.x2 + -layer.buf_area.x1 - (layer.buf_area.x1 + -layer.buf_area.x1) + 1) *
        (env.lv_color_format_get_size layer.color_format : Int) +
      (layer.buf_area.x1 + -layer.buf_area.x1) *
        (env.lv_color_format_get_size layer.color_format : Int) = 0 := by
    ring
  have hw : layer.buf_area.x2 + -layer.buf_area.x1 - (layer.buf_area.x1 + -layer.buf_area.x1) + 1 =
      layer.buf_area.x2 - layer.buf_area.x1 + 1 := by ring
  have hl : 0 ≤ (layer.buf_area.x2 - layer.buf_area.x1 + 1) *
      (env.lv_color_format_get_size layer.color_format : Int) :=
    mul_nonneg (by omega) hpx
  have htot : (0 : Int) + (layer.buf_area.y2 - layer.buf_area.y1 + 1) *
      ((layer.buf_area.x2 - layer.buf_area.x1 + 1) *
        (env.lv_color_format_get_size layer.color_format : Int)) = (b.length : Int) := by
    rw [hlen]; ring
  obtain ⟨b', hb', hlen', hget⟩ := clear_loop_ok _ hl
    (layer.buf_area.y2 + -layer.buf_area.y1 - (layer.buf_area.y1 + -layer.buf_area.y1) + 1).toNat
    b 0 le_rfl (by rw [hrows, htot])
  have hrep : b' = List.replicate b.length 0 := by
    apply List.ext_getElem?
    intro i
    rw [hget i, hrows, htot]
    by_cases hi : i < b.length
    · have hc : (0 : Int) ≤ (i : Int) ∧ (i : Int) < (b.length : Int) :=
        ⟨Int.ofNat_nonneg _, by exact_mod_cast hi⟩
      rw [List.getElem?_eq_getElem hi, Option.map_some', if_pos hc]
      simp [hi]
    · have h1 : b[i]? = none := List.getElem?_eq_none (by omega)
      have h2 : (List.replicate b.length 0)[i]? = none :=
        List.getElem?_eq_none (by simp; omega)
      rw [h1, h2]; rfl
  have hoff' : (layer.buf_area.y1 + -layer.buf_area.y1) *
        (layer.buf_area.x2 - layer.buf_area.x1 + 1) *
        (env.lv_color_format_get_size layer.color_format : Int) +
      (layer.buf_area.x1 + -layer.buf_area.x1) *
        (env.lv_color_format_get_size layer.color_format : Int) = 0 := by
    ring
  simp only [lv_draw_sw_buffer_clear, lv_area_move, lv_area_get_width, hb, hclip, hw, hoff', hb',
    hrep]

/-! ## The allocation step of the dispatch -/

/-- Without 32-bit overflow the requested size is area times pixel size. -/
theorem dispatch_alloc_size_eq (env : Env) (layer : lv_layer_t)
    (hx : layer.buf_area.x1 ≤ layer.buf_area.x2) (hy : layer.buf_area.y1 ≤ layer.buf_area.y2)
    (hfit : lv_area_get_width layer.buf_area * lv_area_get_height layer.buf_area *
      (env.lv_color_format_get_size layer.color_format : Int) < 2 ^ 32) :
    ((dispatch_alloc_size env layer : Nat) : Int) =
      lv_area_get_width layer.buf_area * lv_area_get_height layer.buf_area *
        (env.lv_color_format_get_size layer.color_format : Int) := by
  have hw : 0 ≤ lv_area_get_width layer.buf_area := by unfold lv_area_get_width; omega
  have hh : 0 ≤ lv_area_get_height layer.buf_area := by unfold lv_area_get_height; omega
  have hwh : 0 ≤ lv_area_get_width layer.buf_area * lv_area_get_height layer.buf_area :=
    mul_nonneg hw hh
  unfold dispatch_alloc_size lv_area_get_size
  generalize lv_area_get_width layer.buf_area * lv_area_get_height layer.buf_area = wh at hwh hfit ⊢
  generalize env.lv_color_format_get_size layer.color_format = px at hfit ⊢
  cases px with
  | zero => simp
  | succ p =>
    have hlt : wh < 2 ^ 32 := by
      have : wh ≤ wh * ((p + 1 : Nat) : Int) := by
        have hp : (1 : Int) ≤ ((p + 1 : Nat) : Int) := by push_cast; omega
        nlinarith
      omega
    rw [Int.emod_eq_of_lt hwh hlt]
    push_cast
    rw [Int.toNat_of_nonneg hwh]
    exact Int.emod_eq_of_lt (mul_nonneg hwh (by positivity)) (by push_cast at hfit; exact hfit)

/-- A clear callback that returns writes a layer record only. -/
theorem call_buffer_clear_frame (env : Env) (l : LayerPtr) (m m2 : Mem)
    (h : call_buffer_clear env l m = Except.ok m2) :
    m2.tasks = m.tasks ∧ m2.units = m.units := by
  unfold call_buffer_clear at h
  split at h
  · cases h
  · split at h
    · cases h
    · cases h
      exact ⟨rfl, rfl⟩

/-- An allocation step that returns writes layer records only and calls
neither a renderer nor the dispatcher nor a worker. -/
theorem dispatch_alloc_frame (env : Env) (l : LayerPtr) (m : Mem) (a : Mem × List Event)
    (h : dispatch_alloc env l m = Except.ok a) :
    a.1.tasks = m.tasks ∧ a.1.units = m.units ∧
      ∀ e ∈ a.2, e.is_render = false ∧ e.is_dispatch_request = false ∧
        e.is_sync_signal = false := by
  unfold dispatch_alloc at h
  cases hb : (m.layers l).buf with
  | some b =>
    rw [hb] at h
    cases h
    exact ⟨rfl, rfl, by simp⟩
  | none =>
    rw [hb] at h
    dsimp only at h
    split at h
    · cases h
    · split at h
      · cases h
      · rename_i m2 hm2
        cases h
        obtain ⟨h1, h2⟩ := call_buffer_clear_frame _ _ _ _ hm2
        refine ⟨by rw [h1]; rfl, by rw [h2]; rfl, ?_⟩
        intro e he
        simp only [List.mem_cons, List.mem_singleton, List.not_mem_nil, or_false] at he
        rcases he with he | he <;> subst he <;> exact ⟨rfl, rfl, rfl⟩

/-- With an allocated buffer the allocation step does nothing. -/
theorem dispatch_alloc_allocated (env : Env) (l : LayerPtr) (m : Mem)
    (h : (m.layers l).buf ≠ none) : dispatch_alloc env l m = Except.ok (m, []) := by
  unfold dispatch_alloc
  cases hb : (m.layers l).buf with
  | none => exact absurd hb h
  | some b => rfl

/-- With a NULL buffer, an allocation step that returns has first requested the
buffer from `lv_malloc`. -/
theorem dispatch_alloc_request (env : Env) (l : LayerPtr) (m : Mem) (a : Mem × List Event)
    (hbuf : (m.layers l).buf = none) (h : dispatch_alloc env l m = Except.ok a) :
    ∃ rest, a.2 =
      Event.lv_malloc (dispatch_alloc_size env (m.layers l))
        (env.lv_malloc m (dispatch_alloc_size env (m.layers l))).isSome :: rest := by
  unfold dispatch_alloc at h
  rw [hbuf] at h
  dsimp only at h
  split at h
  · cases h
  · split at h
    · cases h
    · cases h
      simp only [Option.isSome_map']
      exact ⟨_, rfl⟩

/-- When the allocation has what it needs, the allocation step returns. -/
theorem dispatch_alloc_ready (env : Env) (l : LayerPtr) (m : Mem) (h : AllocReady env l m) :
    ∃ a, dispatch_alloc env l m = Except.ok a := by
  by_cases hb : (m.layers l).buf = none
  · rcases h with h | ⟨hm, hcb, hx1, hx, hx2, hy1, hy, hy2, hfit⟩
    · exact absurd hb h
    · obtain ⟨old, hold⟩ := Option.isSome_iff_exists.mp hm
      have hsz := dispatch_alloc_size_eq env (m.layers l) (by omega) (by omega) hfit
      obtain ⟨b', hb', _⟩ := lv_draw_sw_buffer_clear_inside env
        { m.layers l with
          buf := some ((List.range (dispatch_alloc_size env (m.layers l))).map old) }
        _ rfl hx1 hx hx2 hy1 hy hy2 (by simpa using hsz)
      simp only [hcb] at hb'
      unfold dispatch_alloc
      simp only [hb, hold, Option.map_some', Option.isNone_some, Bool.false_eq_true, false_and,
        if_false, call_buffer_clear, set_layer_layers, Function.update_same, hcb, hb']
      exact ⟨_, rfl⟩
  · exact ⟨_, dispatch_alloc_allocated env l m hb⟩

/-- The allocation step on a layer without a buffer whose clip area is its
whole buffer area, with a successful allocation and no 32-bit overflow: it
returns, after one request of area times pixel size bytes, with a buffer of
that many zero bytes. -/
theorem dispatch_alloc_zeroed (env : Env) (l : LayerPtr) (m : Mem) (old : Nat → Nat)
    (hbuf : (m.layers l).buf = none)
    (hcb : (m.layers l).buffer_clear = some BufferClearFn.lv_draw_sw_buffer_clear)
    (hclip : (m.layers l).clip_area = (m.layers l).buf_area)
    (hx : (m.layers l).buf_area.x1 ≤ (m.layers l).buf_area.x2)
    (hy : (m.layers l).buf_area.y1 ≤ (m.layers l).buf_area.y2)
    (hfit : lv_area_get_width (m.layers l).buf_area * lv_area_get_height (m.layers l).buf_area *
      (env.lv_color_format_get_size (m.layers l).color_format : Int) < 2 ^ 32)
    (hmalloc : env.lv_malloc m (dispatch_alloc_size env (m.layers l)) = some old) :
    ∃ a, dispatch_alloc env l m = Except.ok a ∧
      (a.1.layers l).buf = some (List.replicate (dispatch_alloc_size env (m.layers l)) 0) := by
  have hsz := dispatch_alloc_size_eq env (m.layers l) hx hy hfit
  have hcl := lv_draw_sw_buffer_clear_whole env
    { m.layers l with
      buf := some ((List.range (dispatch_alloc_size env (m.layers l))).map old) }
    _ rfl hclip hx hy (by simpa using hsz)
  simp only [List.length_map, List.length_range, hcb] at hcl
  unfold dispatch_alloc
  simp only [hbuf, hmalloc, Option.map_some', Option.isNone_some, Bool.false_eq_true, false_and,
    if_false, call_buffer_clear, set_layer_layers, Function.update_same, hcb, hcl]
  refine ⟨_, rfl, ?_⟩
  simp

/-! ## The cases of `lv_draw_sw_dispatch` -/

/-- A busy unit: the call returns 0 at once. -/
theorem dispatch_busy (env : Env) (u : UnitPtr) (l : LayerPtr) (m : Mem) (t : TaskPtr)
    (hbusy : (m.units u).task_act = some t) :
    lv_draw_sw_dispatch env u l m = Except.ok { ret := 0, mem := m, events := [] } := by
  simp [lv_draw_sw_dispatch, hbusy]

/-- An idle unit and no task on offer: the call returns -1. -/
theorem dispatch_empty (env : Env) (u : UnitPtr) (l : LayerPtr) (m : Mem)
    (hidle : (m.units u).task_act = none)
    (hnext : env.lv_draw_get_next_available_task m l = none) :
    lv_draw_sw_dispatch env u l m = Except.ok { ret := -1, mem := m, events := [] } := by
  simp [lv_draw_sw_dispatch, hidle, hnext]

/-- An idle unit, a task on offer and an allocation step that does not return:
the call does not return. -/
theorem dispatch_fault (env : Env) (u : UnitPtr) (l : LayerPtr) (m : Mem) (t : TaskPtr)
    (f : Fault) (hidle : (m.units u).task_act = none)
    (hnext : env.lv_draw_get_next_available_task m l = some t)
    (ha : dispatch_alloc env l m = Except.error f) :
    lv_draw_sw_dispatch env u l m = Except.error f := by
  simp [lv_draw_sw_dispatch, hidle, hnext, ha]

/-- The threaded dispatch that claims `t`, spelled out. -/
theorem dispatch_threaded (env : Env) (u : UnitPtr) (l : LayerPtr) (m : Mem) (t : TaskPtr)
    (a : Mem × List Event) (hos : env.LV_USE_OS = true) (hidle : (m.units u).task_act = none)
    (hnext : env.lv_draw_get_next_available_task m l = some t)
    (ha : dispatch_alloc env l m = Except.ok a) :
    lv_draw_sw_dispatch env u l m =
      Except.ok
        { ret := 1, mem := dispatch_claim u l t a.1,
          events := a.2 ++ [Event.lv_thread_sync_signal u] } := by
  simp [lv_draw_sw_dispatch, hidle, hnext, ha, hos]

/-- The inline dispatch that claims `t`, spelled out. -/
theorem dispatch_inline (env : Env) (u : UnitPtr) (l : LayerPtr) (m : Mem) (t : TaskPtr)
    (a : Mem × List Event) (hos : env.LV_USE_OS = false) (hidle : (m.units u).task_act = none)
    (hnext : env.lv_draw_get_next_available_task m l = some t)
    (ha : dispatch_alloc env l m = Except.ok a) :
    lv_draw_sw_dispatch env u l m =
      Except.ok
        { ret := 1,
          mem := finish_task u (exectue_drawing env u (dispatch_claim u l t a.1)).1,
          events := a.2 ++ (exectue_drawing env u (dispatch_claim u l t a.1)).2 ++
            [Event.lv_draw_dispatch_request
              (finish_task u (exectue_drawing env u (dispatch_claim u l t a.1)).1)] } := by
  simp [lv_draw_sw_dispatch, hidle, hnext, ha, hos]

/-- Every call that returns is one of the four cases above. -/
theorem dispatch_ok_cases (env : Env) (u : UnitPtr) (l : LayerPtr) (m : Mem) (r : Outcome)
    (h : lv_draw_sw_dispatch env u l m = Except.ok r) :
    ((∃ t0, (m.units u).task_act = some t0) ∧ r = { ret := 0, mem := m, events := [] }) ∨
      ((m.units u).task_act = none ∧ env.lv_draw_get_next_available_task m l = none ∧
        r = { ret := -1, mem := m, events := [] }) ∨
      (∃ t a, (m.units u).task_act = none ∧
        env.lv_draw_get_next_available_task m l = some t ∧
        dispatch_alloc env l m = Except.ok a ∧
        ((env.LV_USE_OS = true ∧
            r = { ret := 1, mem := dispatch_claim u l t a.1,
                  events := a.2 ++ [Event.lv_thread_sync_signal u] }) ∨
          (env.LV_USE_OS = false ∧
            r = { ret := 1,
                  mem := finish_task u (exectue_drawing env u (dispatch_claim u l t a.1)).1,
                  events := a.2 ++ (exectue_drawing env u (dispatch_claim u l t a.1)).2 ++
                    [Event.lv_draw_dispatch_request
                      (finish_task u (exectue_drawing env u (dispatch_claim u l t a.1)).1)] }))) := by
  cases hu : (m.units u).task_act with
  | some t0 =>
    rw [dispatch_busy env u l m t0 hu] at h
    cases h
    exact Or.inl ⟨⟨t0, rfl⟩, rfl⟩
  | none =>
    cases hn : env.lv_draw_get_next_available_task m l with
    | none =>
      rw [dispatch_empty env u l m hu hn] at h
      cases h
      exact Or.inr (Or.inl ⟨rfl, rfl, rfl⟩)
    | some t =>
      cases ha : dispatch_alloc env l m with
      | error f =>
        rw [dispatch_fault env u l m t f hu hn ha] at h
        cases h
      | ok a =>
        refine Or.inr (Or.inr ⟨t, a, rfl, rfl, rfl, ?_⟩)
        cases hos : env.LV_USE_OS with
        | true =>
          rw [dispatch_threaded env u l m t a hos hu hn ha] at h
          cases h
          exact Or.inl ⟨rfl, rfl⟩
        | false =>
          rw [dispatch_inline env u l m t a hos hu hn ha] at h
          cases h
          exact Or.inr ⟨rfl, rfl⟩

/-! ## Return code and frame of `lv_draw_sw_dispatch` -/

/-- C2: a call of `lv_draw_sw_dispatch` that returns a code other than 1 leaves
the whole heap as it was (unit, layer, buffer pointer and every task) and makes
no external call: no allocation, no clear, no renderer, no signal, no dispatch
request. -/
theorem dispatch_no_claim_frame (env : Env) (u : UnitPtr) (layer : LayerPtr) (m : Mem)
    (r : Outcome) (hr : lv_draw_sw_dispatch env u layer m = Except.ok r) (h : r.ret ≠ 1) :
    r.mem = m ∧ r.events = [] := by
  rcases dispatch_ok_cases env u layer m r hr with
    ⟨_, hr⟩ | ⟨_, _, hr⟩ | ⟨t, a, _, _, _, ⟨_, hr⟩ | ⟨_, hr⟩⟩
  · rw [hr]; exact ⟨rfl, rfl⟩
  · rw [hr]; exact ⟨rfl, rfl⟩
  · rw [hr] at h; exact absurd rfl h
  · rw [hr] at h; exact absurd rfl h

theorem dispatch_no_claim_frame_witness :
    lv_draw_sw_dispatch (sample_env false) 1 0 sample_mem =
        Except.ok { ret := 0, mem := sample_mem, events := [] } ∧
      (0 : Int) ≠ 1 ∧
      (sample_mem = sample_mem ∧ ([] : List Event) = []) :=
  ⟨rfl, by decide,
    dispatch_no_claim_frame (sample_env false) 1 0 sample_mem
      { ret := 0, mem := sample_mem, events := [] } rfl (by decide)⟩

/-- C8: for a unit holding task `t`, `exectue_drawing` makes exactly one external
call when the tag of `t` is RECTANGLE, LABEL, IMAGE or LAYER, namely one call of
`lv_draw_sw_rect`, `lv_draw_sw_label`, `lv_draw_sw_img` or `lv_draw_sw_layer`
respectively, with the unit, the descriptor of `t` and the area of `t`; and
`exectue_drawing` itself changes no task (so not the state of `t`) and no unit
(so not `task_act`). -/
theorem exectue_drawing_selects_renderer (env : Env) (u : UnitPtr) (m : Mem) (t : TaskPtr)
    (ht : (m.units u).task_act = some t) :
    ((m.tasks t).type = lv_draw_task_type_t.RECTANGLE → (exectue_drawing env u m).2 =
        [Event.render Renderer.lv_draw_sw_rect u (m.tasks t).draw_dsc (m.tasks t).area m]) ∧
      ((m.tasks t).type = lv_draw_task_type_t.LABEL → (exectue_drawing env u m).2 =
        [Event.render Renderer.lv_draw_sw_label u (m.tasks t).draw_dsc (m.tasks t).area m]) ∧
      ((m.tasks t).type = lv_draw_task_type_t.IMAGE → (exectue_drawing env u m).2 =
        [Event.render Renderer.lv_draw_sw_img u (m.tasks t).draw_dsc (m.tasks t).area m]) ∧
      ((m.tasks t).type = lv_draw_task_type_t.LAYER → (exectue_drawing env u m).2 =
        [Event.render Renderer.lv_draw_sw_layer u (m.tasks t).draw_dsc (m.tasks t).area m]) ∧
      (exectue_drawing env u m).1.tasks = m.tasks ∧
      (exectue_drawing env u m).1.units = m.units := by
  refine ⟨?_, ?_, ?_, ?_, exectue_drawing_tasks env u m, exectue_drawing_units env u m⟩ <;>
    intro hty <;> simp [exectue_drawing, ht, hty, call_renderer]

theorem exectue_drawing_selects_renderer_witness :
    (sample_mem.units 1).task_act = some 1 ∧
      (exectue_drawing (sample_env false) 1 sample_mem).2 =
        [Event.render Renderer.lv_draw_sw_label 1 41 sample_area sample_mem] ∧
      (exectue_drawing (sample_env false) 1 sample_mem).1.tasks = sample_mem.tasks ∧
      (exectue_drawing (sample_env false) 1 sample_mem).1.units = sample_mem.units :=
  ⟨rfl,
    (exectue_drawing_selects_renderer (sample_env false) 1 sample_mem 1 rfl).2.1 rfl,
    (exectue_drawing_selects_renderer (sample_env false) 1 sample_mem 1 rfl).2.2.2.2.1,
    (exectue_drawing_selects_renderer (sample_env false) 1 sample_mem 1 rfl).2.2.2.2.2⟩

/-! ## Task life cycle and ownership -/

theorem dispatch_claim_tasks (u : UnitPtr) (l : LayerPtr) (t : TaskPtr) (m : Mem) :
    (dispatch_claim u l t m).tasks =
      Function.update m.tasks t { m.tasks t with state := lv_draw_task_state_t.IN_PRGRESS } := rfl

theorem dispatch_claim_task_act (u : UnitPtr) (l : LayerPtr) (t : TaskPtr) (m : Mem)
    (v : UnitPtr) :
    ((dispatch_claim u l t m).units v).task_act =
      if v = u then some t else (m.units v).task_act := by
  by_cases h : v = u
  · subst h; simp [dispatch_claim]
  · simp [dispatch_claim, Function.update_noteq h, h]

theorem finish_task_tasks (u : UnitPtr) (t : TaskPtr) (m : Mem)
    (ht : (m.units u).task_act = some t) :
    (finish_task u m).tasks =
      Function.update m.tasks t { m.tasks t with state := lv_draw_task_state_t.READY } := by
  simp [finish_task, ht]

theorem finish_task_task_act (u : UnitPtr) (m : Mem) (v : UnitPtr) :
    ((finish_task u m).units v).task_act = if v = u then none else (m.units v).task_act := by
  by_cases h : v = u
  · subst h; simp [finish_task]
  · unfold finish_task
    split <;> simp [Function.update_noteq h, h]

/-- Heap after a worker pass with a task assigned. -/
theorem render_thread_cb_mem (env : Env) (u : UnitPtr) (m : Mem) (t : TaskPtr)
    (ht : (m.units u).task_act = some t) :
    (render_thread_cb env u m).1 = finish_task u (exectue_drawing env u m).1 := by
  simp [render_thread_cb, ht]

theorem render_thread_cb_mem_idle (env : Env) (u : UnitPtr) (m : Mem)
    (ht : (m.units u).task_act = none) : (render_thread_cb env u m).1 = m := by
  simp [render_thread_cb, ht]

/-- Tasks after a dispatch that returns: only the claimed task differs, and
only in its state, which is IN_PROGRESS (threaded) or READY (inline). -/
theorem dispatch_tasks (env : Env) (u : UnitPtr) (l : LayerPtr) (m : Mem) (r : Outcome)
    (hr : lv_draw_sw_dispatch env u l m = Except.ok r) (t : TaskPtr) :
    r.mem.tasks t = m.tasks t ∨
      ((m.units u).task_act = none ∧ env.lv_draw_get_next_available_task m l = some t ∧
        ((r.mem.tasks t).state = lv_draw_task_state_t.IN_PRGRESS ∨
         (r.mem.tasks t).state = lv_draw_task_state_t.READY)) := by
  rcases dispatch_ok_cases env u l m r hr with
    ⟨_, hr⟩ | ⟨_, _, hr⟩ | ⟨t1, a, hu, hn, ha, hcase⟩
  · left; rw [hr]
  · left; rw [hr]
  · obtain ⟨hat, _, _⟩ := dispatch_alloc_frame env l m a ha
    have hc := dispatch_claim_spec u l t1 a.1
    have hd : ((exectue_drawing env u (dispatch_claim u l t1 a.1)).1.units u).task_act =
        some t1 := by
      rw [exectue_drawing_units]; exact hc.1
    by_cases htt : t = t1
    · subst htt
      right
      refine ⟨hu, hn, ?_⟩
      rcases hcase with ⟨_, hr⟩ | ⟨_, hr⟩
      · left; rw [hr]; exact hc.2.2.2
      · right; rw [hr]; exact (finish_task_spec u t _ hd).1
    · left
      rcases hcase with ⟨_, hr⟩ | ⟨_, hr⟩
      · rw [hr]
        show (dispatch_claim u l t1 a.1).tasks t = m.tasks t
        rw [dispatch_claim_tasks, Function.update_noteq htt, hat]
      · rw [hr]
        show (finish_task u (exectue_drawing env u (dispatch_claim u l t1 a.1)).1).tasks t =
          m.tasks t
        rw [finish_task_tasks u t1 _ hd, Function.update_noteq htt, exectue_drawing_tasks,
          dispatch_claim_tasks, Function.update_noteq htt, hat]

/-- Tasks after a worker pass: only the held task differs, and it is READY. -/
theorem render_thread_cb_tasks (env : Env) (u : UnitPtr) (m : Mem) (t : TaskPtr) :
    (render_thread_cb env u m).1.tasks t = m.tasks t ∨
      ((m.units u).task_act = some t ∧
        ((render_thread_cb env u m).1.tasks t).state = lv_draw_task_state_t.READY) := by
  cases hu : (m.units u).task_act with
  | none => left; rw [render_thread_cb_mem_idle env u m hu]
  | some t1 =>
    rw [render_thread_cb_mem env u m t1 hu]
    have hd : ((exectue_drawing env u m).1.units u).task_act = some t1 := by
      rw [exectue_drawing_units]; exact hu
    by_cases htt : t = t1
    · subst htt
      right
      exact ⟨rfl, (finish_task_spec u t _ hd).1⟩
    · left
      rw [finish_task_tasks u t1 _ hd, Function.update_noteq htt, exectue_drawing_tasks]

/-- One step never moves a task backwards, given a queue query that offers
queued tasks only. -/
theorem step_rank_le (env : Env) (hq : QueuedOnly env) (m m' : Mem) (h : Step env m m')
    (t : TaskPtr) : (m.tasks t).state.rank ≤ (m'.tasks t).state.rank := by
  cases h with
  | dispatch u l _ r hr =>
    rcases dispatch_tasks env u l m r hr t with h | ⟨_, hn, _⟩
    · rw [h]
    · rw [hq m l t hn]; exact Nat.zero_le _
  | worker u =>
    rcases render_thread_cb_tasks env u m t with h | ⟨_, hr⟩
    · rw [h]
    · rw [hr]
      cases (m.tasks t).state <;> decide

/-- C4: with a queue query that offers queued tasks only, along every sequence
of `lv_draw_sw_dispatch` calls and worker passes the state of a task only moves
forward in the order QUEUED, IN_PROGRESS, READY (so READY never becomes
IN_PROGRESS or QUEUED and IN_PROGRESS never becomes QUEUED); a dispatch changes
the state of no task but the one it claims, and a worker pass that of no task
but the one its unit holds. -/
theorem task_state_monotone (env : Env) (hq : QueuedOnly env) :
    (∀ m m', Relation.ReflTransGen (Step env) m m' →
        ∀ t, (m.tasks t).state.rank ≤ (m'.tasks t).state.rank) ∧
      (∀ u layer m r t, lv_draw_sw_dispatch env u layer m = Except.ok r →
        (r.mem.tasks t).state ≠ (m.tasks t).state →
          (m.units u).task_act = none ∧
            env.lv_draw_get_next_available_task m layer = some t) ∧
      (∀ u m t, ((render_thread_cb env u m).1.tasks t).state ≠ (m.tasks t).state →
          (m.units u).task_act = some t) := by
  refine ⟨?_, ?_, ?_⟩
  · intro m m' h
    induction h with
    | refl => intro t; exact le_rfl
    | tail _ hstep ih => intro t; exact le_trans (ih t) (step_rank_le env hq _ _ hstep t)
  · intro u layer m r t hr hne
    rcases dispatch_tasks env u layer m r hr t with h | ⟨h1, h2, _⟩
    · rw [h] at hne; exact absurd rfl hne
    · exact ⟨h1, h2⟩
  · intro u m t hne
    rcases render_thread_cb_tasks env u m t with h | ⟨h1, _⟩
    · rw [h] at hne; exact absurd rfl hne
    · exact h1

theorem task_state_monotone_witness :
    QueuedOnly (sample_env true) ∧
      ∃ r, lv_draw_sw_dispatch (sample_env true) 0 0 sample_mem = Except.ok r ∧
        (sample_mem.tasks 0).state.rank ≤
          ((render_thread_cb (sample_env true) 0 r.mem).1.tasks 0).state.rank :=
  ⟨sample_env_queued_only true,
    ⟨_, dispatch_threaded (sample_env true) 0 0 sample_mem 0 _ rfl rfl rfl rfl,
      (task_state_monotone (sample_env true) (sample_env_queued_only true)).1 _ _
        (Relation.ReflTransGen.tail
          (Relation.ReflTransGen.single
            (Step.dispatch 0 0 sample_mem _
              (dispatch_threaded (sample_env true) 0 0 sample_mem 0 _ rfl rfl rfl rfl)))
          (Step.worker 0 _)) 0⟩⟩

/-- A threaded dispatch that returns keeps the ownership invariant. -/
theorem owned_dispatch (env : Env) (hos : env.LV_USE_OS = true) (hq : QueuedOnly env)
    (u : UnitPtr) (l : LayerPtr) (m : Mem) (r : Outcome)
    (hr : lv_draw_sw_dispatch env u l m = Except.ok r) (h : Owned m) : Owned r.mem := by
  rcases dispatch_ok_cases env u l m r hr with
    ⟨_, hr⟩ | ⟨_, _, hr⟩ | ⟨t, a, hu, hn, ha, ⟨_, hr⟩ | ⟨hos', _⟩⟩
  · rw [hr]; exact h
  · rw [hr]; exact h
  · rw [hr]
    show Owned (dispatch_claim u l t a.1)
    obtain ⟨hat, hau, _⟩ := dispatch_alloc_frame env l m a ha
    have hqt := hq m l t hn
    have hfree : ∀ v, (m.units v).task_act ≠ some t := by
      intro v hv
      have := h.1 v t hv
      rw [hqt] at this
      cases this
    constructor
    · intro v t' hv
      rw [dispatch_claim_task_act, hau] at hv
      rw [dispatch_claim_tasks, hat]
      by_cases htt : t' = t
      · subst htt; simp
      · rw [Function.update_noteq htt]
        by_cases hvu : v = u
        · rw [if_pos hvu] at hv
          cases hv
          exact absurd rfl htt
        · rw [if_neg hvu] at hv
          exact h.1 v t' hv
    · intro v w t' hv hw
      rw [dispatch_claim_task_act, hau] at hv hw
      by_cases hvu : v = u <;> by_cases hwu : w = u
      · rw [hvu, hwu]
      · rw [if_pos hvu] at hv
        rw [if_neg hwu] at hw
        cases hv
        exact absurd hw (hfree w)
      · rw [if_neg hvu] at hv
        rw [if_pos hwu] at hw
        cases hw
        exact absurd hv (hfree v)
      · rw [if_neg hvu] at hv
        rw [if_neg hwu] at hw
        exact h.2 v w t' hv hw
  · rw [hos] at hos'; cases hos'

/-- A worker pass keeps the ownership invariant. -/
theorem owned_worker (env : Env) (u : UnitPtr) (m : Mem) (h : Owned m) :
    Owned (render_thread_cb env u m).1 := by
  cases hu : (m.units u).task_act with
  | none => rw [render_thread_cb_mem_idle env u m hu]; exact h
  | some t =>
    rw [render_thread_cb_mem env u m t hu]
    have hd : ((exectue_drawing env u m).1.units u).task_act = some t := by
      rw [exectue_drawing_units]; exact hu
    constructor
    · intro v t' hv
      rw [finish_task_task_act, exectue_drawing_units] at hv
      by_cases hvu : v = u
      · rw [if_pos hvu] at hv; cases hv
      · rw [if_neg hvu] at hv
        have htt : t' ≠ t := by
          intro htt
          subst htt
          exact hvu (h.2 v u t' hv hu)
        rw [finish_task_tasks u t _ hd, Function.update_noteq htt, exectue_drawing_tasks]
        exact h.1 v t' hv
    · intro v w t' hv hw
      rw [finish_task_task_act, exectue_drawing_units] at hv hw
      by_cases hvu : v = u
      · rw [if_pos hvu] at hv; cases hv
      · by_cases hwu : w = u
        · rw [if_pos hwu] at hw; cases hw
        · rw [if_neg hvu] at hv
          rw [if_neg hwu] at hw
          exact h.2 v w t' hv hw

/-- C5: in the threaded configuration, with a queue query that offers queued
tasks only, every heap reachable from a heap with all units idle by dispatch
calls and worker passes satisfies: the task held by a busy unit is IN_PROGRESS,
and no two distinct units hold the same task. -/
theorem ownership_invariant (env : Env) (hos : env.LV_USE_OS = true) (hq : QueuedOnly env)
    (m0 m : Mem) (h0 : AllIdle m0) (hr : Relation.ReflTransGen (Step env) m0 m) :
    (∀ u t, (m.units u).task_act = some t →
        (m.tasks t).state = lv_draw_task_state_t.IN_PRGRESS) ∧
      (∀ u v t, (m.units u).task_act = some t → (m.units v).task_act = some t → u = v) := by
  have hown : Owned m := by
    induction hr with
    | refl =>
      constructor
      · intro u t hu
        rw [h0 u] at hu
        cases hu
      · intro u v t hu
        rw [h0 u] at hu
        cases hu
    | tail _ hstep ih =>
      cases hstep with
      | dispatch u l _ r hr => exact owned_dispatch env hos hq u l _ r hr ih
      | worker u => exact owned_worker env u _ ih
  exact hown

theorem ownership_invariant_witness :
    (sample_env true).LV_USE_OS = true ∧ QueuedOnly (sample_env true) ∧ AllIdle idle_mem ∧
      ∃ r, lv_draw_sw_dispatch (sample_env true) 0 0 idle_mem = Except.ok r ∧
        ((∀ u t, (r.mem.units u).task_act = some t →
            (r.mem.tasks t).state = lv_draw_task_state_t.IN_PRGRESS) ∧
          (∀ u v t, (r.mem.units u).task_act = some t → (r.mem.units v).task_act = some t →
            u = v)) :=
  ⟨rfl, sample_env_queued_only true, fun _ => rfl,
    ⟨_, dispatch_threaded (sample_env true) 0 0 idle_mem 0 _ rfl rfl rfl rfl,
      ownership_invariant (sample_env true) rfl (sample_env_queued_only true) idle_mem _
        (fun _ => rfl)
        (Relation.ReflTransGen.single
          (Step.dispatch 0 0 idle_mem _
            (dispatch_threaded (sample_env true) 0 0 idle_mem 0 _ rfl rfl rfl rfl)))⟩⟩

/-! ## Lazy allocation on the first claim -/

/-- C7, the code at the failing input: unit 0 is idle, task 0 is on offer,
layer 0 has no buffer and `lv_malloc` returns NULL. The call never comes back to
its caller, with or without an OS: with the allocation check compiled in it
stops in `LV_ASSERT_MALLOC`; with the check compiled out NULL is stored in
`layer->buf` and the clear routine is called on the NULL buffer, where it stores
through NULL. -/
theorem dispatch_stops_after_failed_malloc :
    (sample_mem.units 0).task_act = none ∧
      (failing_env false true).lv_draw_get_next_available_task sample_mem 0 = some 0 ∧
      (sample_mem.layers 0).buf = none ∧
      lv_draw_sw_dispatch (failing_env false true) 0 0 sample_mem =
        Except.error Fault.assert_malloc ∧
      lv_draw_sw_dispatch (failing_env true true) 0 0 sample_mem =
        Except.error Fault.assert_malloc ∧
      lv_draw_sw_dispatch (failing_env false false) 0 0 sample_mem =
        Except.error Fault.null_write ∧
      lv_draw_sw_dispatch (failing_env true false) 0 0 sample_mem =
        Except.error Fault.null_write ∧
      lv_draw_sw_buffer_clear (failing_env false false)
          { sample_mem.layers 0 with buf := none } =
        Except.error Fault.null_write :=
  ⟨rfl, rfl, rfl, rfl, rfl, rfl, rfl, rfl⟩

/-! ## DPI scaling -/

/-- Inside the range of `int` the machine value is the mathematical one. -/
theorem wrap_int_of_range (x : Int) (h1 : -2 ^ 31 ≤ x) (h2 : x < 2 ^ 31) : wrap_int x = x := by
  unfold wrap_int
  norm_num at h1 h2 ⊢
  omega

/-- `LV_MAX` is the maximum. -/
theorem LV_MAX_eq_max (a b : Int) : LV_MAX a b = max a b := by
  unfold LV_MAX
  split <;> omega

/-- Without overflow and for non negative operands the macro computes
`max (floor ((dpi * n + 80) / 160)) 1` for `n ≠ 0` and `0` for `n = 0`. -/
theorem LV_DPX_CALC_eq (dpi n : Int) (hd : 0 ≤ dpi) (hn : 0 ≤ n)
    (hov : dpi * n + 80 < 2 ^ 31) :
    _LV_DPX_CALC dpi n = if n = 0 then 0 else max ((dpi * n + 80) / 160) 1 := by
  have hq : 0 ≤ dpi * n := mul_nonneg hd hn
  have h31 : (2 : Int) ^ 31 = 2147483648 := by norm_num
  unfold _LV_DPX_CALC
  rw [wrap_int_of_range (dpi * n) (by omega) (by omega),
    wrap_int_of_range (dpi * n + 80) (by omega) (by omega), LV_MAX_eq_max,
    Int.tdiv_eq_ediv (by omega) (by norm_num)]

/-- C9: for `k ≥ 1` and `n ≥ 0` with `160 * k * n + 80` inside the range of
`int`, `_LV_DPX_CALC(160 * k, n)` is `k * n`; in particular `lv_disp_dpx`
returns `n` on a display of 160 DPI and `2 * n` on a display of 320 DPI. -/
theorem dpx_calc_multiple_of_160 (n : Int) (hn : 0 ≤ n) :
    (∀ k : Int, 1 ≤ k → 160 * k * n + 80 < 2 ^ 31 → _LV_DPX_CALC (160 * k) n = k * n) ∧
      (∀ (lv_disp_get_dpi : Option Nat → Int) (disp : Option Nat),
        lv_disp_get_dpi disp = 160 → 160 * n + 80 < 2 ^ 31 →
          lv_disp_dpx lv_disp_get_dpi disp n = n) ∧
      (∀ (lv_disp_get_dpi : Option Nat → Int) (disp : Option Nat),
        lv_disp_get_dpi disp = 320 → 320 * n + 80 < 2 ^ 31 →
          lv_disp_dpx lv_disp_get_dpi disp n = 2 * n) := by
  have key : ∀ k : Int, 1 ≤ k → 160 * k * n + 80 < 2 ^ 31 →
      _LV_DPX_CALC (160 * k) n = k * n := by
    intro k hk hov
    rw [LV_DPX_CALC_eq (160 * k) n (by omega) hn hov]
    by_cases h0 : n = 0
    · simp [h0]
    · have hp : 1 ≤ k * n := by
        have : 0 < k * n := mul_pos (by omega) (by omega)
        omega
      have he : 160 * k * n = 160 * (k * n) := by ring
      rw [if_neg h0, he]
      generalize k * n = p at hp ⊢
      omega
  refine ⟨key, ?_, ?_⟩
  · intro g disp hg hov
    have := key 1 (by norm_num) (by simpa using hov)
    simpa [lv_disp_dpx, hg] using this
  · intro g disp hg hov
    have := key 2 (by norm_num) (by norm_num; linarith)
    simpa [lv_disp_dpx, hg] using this

theorem dpx_calc_multiple_of_160_witness :
    (0 : Int) ≤ 7 ∧ _LV_DPX_CALC (160 * 3) 7 = 3 * 7 ∧
      lv_disp_dpx (fun _ => 160) none 7 = 7 ∧
      lv_disp_dpx (fun _ => 320) (some 0) 7 = 2 * 7 :=
  ⟨by decide, (dpx_calc_multiple_of_160 7 (by decide)).1 3 (by decide) (by decide),
    (dpx_calc_multiple_of_160 7 (by decide)).2.1 (fun _ => 160) none rfl (by decide),
    (dpx_calc_multiple_of_160 7 (by decide)).2.2 (fun _ => 320) (some 0) rfl (by decide)⟩

/-- C10: for a display of DPI `dpi ≥ 0` and `n ≥ 0` with `dpi * n + 80` inside
the range of `int`, `lv_disp_dpx` returns 0 for `n = 0` and otherwise the larger
of 1 and `floor ((dpi * n + 80) / 160)`, which is `dpi * n / 160` rounded to the
nearest integer with halves rounded up; the result is 0 exactly when `n` is 0;
the result does not decrease when `n` grows; and `lv_dpx` is `lv_disp_dpx` on
the NULL (default) display. -/
theorem dpx_rounds_half_up (lv_disp_get_dpi : Option Nat → Int) (disp : Option Nat) (n : Int)
    (hd : 0 ≤ lv_disp_get_dpi disp) (hn : 0 ≤ n)
    (hov : lv_disp_get_dpi disp * n + 80 < 2 ^ 31) :
    lv_disp_dpx lv_disp_get_dpi disp n =
        (if n = 0 then 0 else max ((lv_disp_get_dpi disp * n + 80) / 160) 1) ∧
      (lv_disp_get_dpi disp * n - 80 < 160 * ((lv_disp_get_dpi disp * n + 80) / 160) ∧
        160 * ((lv_disp_get_dpi disp * n + 80) / 160) ≤ lv_disp_get_dpi disp * n + 80) ∧
      (lv_disp_dpx lv_disp_get_dpi disp n = 0 ↔ n = 0) ∧
      (∀ n', n ≤ n' → lv_disp_get_dpi disp * n' + 80 < 2 ^ 31 →
        lv_disp_dpx lv_disp_get_dpi disp n ≤ lv_disp_dpx lv_disp_get_dpi disp n') ∧
      lv_dpx lv_disp_get_dpi n = lv_disp_dpx lv_disp_get_dpi none n := by
  have hq : 0 ≤ lv_disp_get_dpi disp * n := mul_nonneg hd hn
  have heq := LV_DPX_CALC_eq (lv_disp_get_dpi disp) n hd hn hov
  refine ⟨heq, ⟨by omega, by omega⟩, ?_, ?_, rfl⟩
  · unfold lv_disp_dpx
    rw [heq]
    constructor
    · intro h
      by_contra h0
      rw [if_neg h0] at h
      omega
    · intro h0
      rw [if_pos h0]
  · intro n' hnn hov'
    unfold lv_disp_dpx
    have hle : lv_disp_get_dpi disp * n ≤ lv_disp_get_dpi disp * n' :=
      mul_le_mul_of_nonneg_left hnn hd
    rw [heq, LV_DPX_CALC_eq (lv_disp_get_dpi disp) n' hd (by omega) hov']
    by_cases h0 : n = 0
    · rw [if_pos h0]
      split <;> omega
    · have h0' : n' ≠ 0 := by omega
      rw [if_neg h0, if_neg h0']
      generalize lv_disp_get_dpi disp * n = q at hle hq ⊢
      generalize lv_disp_get_dpi disp * n' = q' at hle ⊢
      omega

theorem dpx_rounds_half_up_witness :
    (0 : Int) ≤ 130 ∧ (0 : Int) ≤ 2 ∧ lv_disp_dpx (fun _ => 130) none 2 = 2 ∧
      lv_disp_dpx (fun _ => 130) none 2 ≤ lv_disp_dpx (fun _ => 130) none 3 :=
  ⟨by decide, by decide,
    (dpx_rounds_half_up (fun _ => 130) none 2 (by decide) (by decide) (by decide)).1,
    (dpx_rounds_half_up (fun _ => 130) none 2 (by decide) (by decide) (by decide)).2.2.2.1 3
      (by decide) (by decide)⟩

/-! ## Linked lists in the heap -/

/-- A list has one sequence of nodes. -/
theorem chain_unique (next : Nat → Option Nat) (l1 : List Nat) :
    ∀ (l2 : List Nat) (h : Option Nat), chain next h l1 → chain next h l2 → l1 = l2 := by
  induction l1 with
  | nil =>
    intro l2 h h1 h2
    cases h with
    | none => cases l2 with
      | nil => rfl
      | cons q r => exact absurd h2 (by simp [chain])
    | some p => exact absurd h1 (by simp [chain])
  | cons a r ih =>
    intro l2 h h1 h2
    cases h with
    | none => exact absurd h1 (by simp [chain])
    | some p =>
      cases l2 with
      | nil => exact absurd h2 (by simp [chain])
      | cons b r2 =>
        simp only [chain] at h1 h2
        rw [← h1.1, ← h2.1, ih r2 _ h1.2 h2.2]

/-- Only the `next` fields of the nodes of a list matter. -/
theorem chain_congr (next next' : Nat → Option Nat) (l : List Nat) :
    ∀ h : Option Nat, chain next h l → (∀ p ∈ l, next' p = next p) → chain next' h l := by
  induction l with
  | nil =>
    intro h h1 _
    cases h with
    | none => trivial
    | some p => exact absurd h1 (by simp [chain])
  | cons a r ih =>
    intro h h1 hn
    cases h with
    | none => exact absurd h1 (by simp [chain])
    | some p =>
      simp only [chain] at h1 ⊢
      refine ⟨h1.1, ?_⟩
      rw [hn p (by rw [h1.1]; exact List.mem_cons_self _ _)]
      exact ih _ h1.2 (fun q hq => hn q (List.mem_cons_of_mem _ hq))

/-- From a later node of a list one reaches a strictly shorter list. -/
theorem chain_of_mem_tail (next : Nat → Option Nat) (p : Nat) (rest : List Nat) :
    ∀ (h : Option Nat) (q : Nat), chain next h (q :: rest) → p ∈ rest →
      ∃ s, chain next (some p) s ∧ s.length ≤ rest.length := by
  induction rest with
  | nil => intro h q _ hp; cases hp
  | cons r rest' ih =>
    intro h q hc hp
    cases h with
    | none => exact absurd hc (by simp [chain])
    | some h0 =>
      simp only [chain] at hc
      have hr : chain next (some r) (r :: rest') := by
        cases hn : next h0 with
        | none => rw [hn] at hc; exact absurd hc.2 (by simp [chain])
        | some x =>
          rw [hn] at hc
          have h2 := hc.2
          simp only [chain] at h2
          obtain ⟨hx, hr'⟩ := h2
          subst hx
          exact ⟨rfl, hr'⟩
      rcases List.mem_cons.mp hp with hpr | hpr
      · subst hpr
        exact ⟨_, hr, le_rfl⟩
      · obtain ⟨s, hs, hl⟩ := ih _ _ hr hpr
        exact ⟨s, hs, by simp only [List.length_cons]; omega⟩

/-- The nodes of a list are pairwise distinct. -/
theorem chain_nodup (next : Nat → Option Nat) (l : List Nat) :
    ∀ h : Option Nat, chain next h l → l.Nodup := by
  induction l with
  | nil => intro _ _; exact List.nodup_nil
  | cons a r ih =>
    intro h hc
    cases h with
    | none => exact absurd hc (by simp [chain])
    | some p =>
      have hc' := hc
      simp only [chain] at hc
      obtain ⟨hpa, hrest⟩ := hc
      subst hpa
      refine List.nodup_cons.mpr ⟨?_, ih _ hrest⟩
      intro ha
      obtain ⟨s, hs, hl⟩ := chain_of_mem_tail next p r _ _ hc' ha
      have := chain_unique next _ _ _ hs hc'
      rw [this] at hl
      simp only [List.length_cons] at hl
      omega

/-- Linking a new node behind the last node of a list. -/
theorem chain_snoc (next next' : Nat → Option Nat) (tl l : Nat) (init : List Nat) :
    ∀ h : Option Nat, chain next h (init ++ [tl]) → (∀ p ∈ init, next' p = next p) →
      next' tl = some l → next' l = none → chain next' h (init ++ [tl, l]) := by
  induction init with
  | nil =>
    intro h hc _ htl hl
    cases h with
    | none => exact absurd hc (by simp [chain])
    | some p =>
      simp only [List.nil_append, chain] at hc ⊢
      rw [hc.1, htl]
      simp [chain, hl]
  | cons a r ih =>
    intro h hc hn htl hl
    cases h with
    | none => exact absurd hc (by simp [chain])
    | some p =>
      simp only [List.cons_append, chain] at hc ⊢
      refine ⟨hc.1, ?_⟩
      rw [hn p (by rw [hc.1]; exact List.mem_cons_self _ _)]
      exact ih _ hc.2 (fun q hq => hn q (List.mem_cons_of_mem _ hq)) htl hl

/-- Cutting a list behind one of its nodes. -/
theorem chain_cut (next next' : Nat → Option Nat) (li : Nat) (post : List Nat)
    (pre : List Nat) :
    ∀ h : Option Nat, chain next h (pre ++ li :: post) → (∀ p ∈ pre, next' p = next p) →
      next' li = none → chain next' h (pre ++ [li]) := by
  induction pre with
  | nil =>
    intro h hc _ hl
    cases h with
    | none => exact absurd hc (by simp [chain])
    | some p =>
      simp only [List.nil_append, chain] at hc ⊢
      rw [hc.1, hl]
      simp [chain]
  | cons a r ih =>
    intro h hc hn hl
    cases h with
    | none => exact absurd hc (by simp [chain])
    | some p =>
      simp only [List.cons_append, chain] at hc ⊢
      refine ⟨hc.1, ?_⟩
      rw [hn p (by rw [hc.1]; exact List.mem_cons_self _ _)]
      exact ih _ hc.2 (fun q hq => hn q (List.mem_cons_of_mem _ hq)) hl

/-- The walk of `lv_draw_sw_init_ctx` finds the last layer of a list when it is
given at least as many steps as the list has layers. -/
theorem layer_tail_of_chain (m : Mem) (tl : LayerPtr) (init : List LayerPtr) :
    ∀ (hd : LayerPtr) (fuel : Nat), layer_list m (some hd) (init ++ [tl]) →
      (init ++ [tl]).length ≤ fuel → layer_tail m fuel hd = some tl := by
  induction init with
  | nil =>
    intro hd fuel hc hf
    simp only [layer_list, List.nil_append, chain] at hc
    cases fuel with
    | zero => simp at hf
    | succ f =>
      obtain ⟨h1, h2⟩ := hc
      subst h1
      cases hn : (m.layers hd).next with
      | none => simp [layer_tail, hn]
      | some x => rw [hn] at h2; exact absurd h2 (by simp [chain])
  | cons a r ih =>
    intro hd fuel hc hf
    simp only [layer_list, List.cons_append, chain] at hc
    cases fuel with
    | zero => simp at hf
    | succ f =>
      cases hn : (m.layers hd).next with
      | none =>
        rw [hn] at hc
        cases r <;> exact absurd hc.2 (by simp [chain])
      | some x =>
        rw [hn] at hc
        simp only [layer_tail, hn]
        refine ih x f hc.2 ?_
        simp only [List.cons_append, List.length_cons] at hf
        omega

/-! ## Creating and destroying a layer -/

/-- C11: for a display whose layer list is `ls`, `lv_draw_sw_init_ctx` (given a
fresh block by the allocator and enough steps for the walk to the tail) returns
the new layer `l` and leaves the layer list of the display equal to `ls`
followed by `l`. The new layer record is stated field by field: `next = NULL`,
a NULL buffer pointer, zero areas, the colour format of the display and the
three callbacks of the software renderer.
Every other layer keeps its contents, the former last layer up to its `next`
pointer, which now is `l`; tasks, units and the other fields of the display are
unchanged. -/
theorem init_ctx_appends_layer (fuel : Nat) (l : LayerPtr) (disp : lv_disp_t) (m : Mem)
    (ls : List LayerPtr) (hlist : layer_list m disp.layer_head ls) (hfresh : l ∉ ls)
    (hfuel : ls.length ≤ fuel) :
    ∃ r, lv_draw_sw_init_ctx fuel (some l) disp m = some r ∧ r.ret = some l ∧
      layer_list r.mem r.disp.layer_head (ls ++ [l]) ∧
      r.mem.layers l =
        { buf := none
          buf_area := { x1 := 0, y1 := 0, x2 := 0, y2 := 0 }
          clip_area := { x1 := 0, y1 := 0, x2 := 0, y2 := 0 }
          color_format := disp.color_format
          buffer_copy := some BufferCopyFn.lv_draw_sw_buffer_copy
          buffer_convert := some BufferConvertFn.lv_draw_sw_buffer_convert
          buffer_clear := some BufferClearFn.lv_draw_sw_buffer_clear
          next := none } ∧
      (∀ p, p ≠ l → { r.mem.layers p with next := (m.layers p).next } = m.layers p) ∧
      (∀ p, p ≠ l → ls.getLast? ≠ some p → r.mem.layers p = m.layers p) ∧
      r.mem.tasks = m.tasks ∧ r.mem.units = m.units ∧
      r.disp.color_format = disp.color_format ∧
      r.disp.draw_unit_head = disp.draw_unit_head := by
  have hrec : sw_layer_new disp.color_format =
      { buf := none
        buf_area := { x1 := 0, y1 := 0, x2 := 0, y2 := 0 }
        clip_area := { x1 := 0, y1 := 0, x2 := 0, y2 := 0 }
        color_format := disp.color_format
        buffer_copy := some BufferCopyFn.lv_draw_sw_buffer_copy
        buffer_convert := some BufferConvertFn.lv_draw_sw_buffer_convert
        buffer_clear := some BufferClearFn.lv_draw_sw_buffer_clear
        next := none } := rfl
  rw [← hrec]
  rcases List.eq_nil_or_concat ls with hnil | ⟨init, tl, hcat⟩
  · subst hnil
    have hhead : disp.layer_head = none := by
      cases hh : disp.layer_head with
      | none => rfl
      | some p => rw [layer_list, hh] at hlist; exact absurd hlist (by simp [chain])
    refine ⟨⟨some l, { disp with layer_head := some l },
      m.set_layer l (sw_layer_new disp.color_format)⟩,
      by simp only [lv_draw_sw_init_ctx, hhead], rfl, ?_, ?_, ?_, ?_, rfl, rfl, rfl, rfl⟩
    · simp [layer_list, chain, lv_layer_zero, sw_layer_new]
    · simp
    · intro p hp
      simp [Function.update_noteq hp]
    · intro p hp _
      simp [Function.update_noteq hp]
  · rw [List.concat_eq_append] at hcat
    subst hcat
    have hnd := chain_nodup _ _ _ hlist
    have htl_l : tl ≠ l := by
      intro h; exact hfresh (by simp [h])
    have htl_init : tl ∉ init := by
      intro h
      have := List.nodup_append.mp hnd
      exact this.2.2 h (List.mem_singleton_self tl) 
    obtain ⟨hd, hhd⟩ : ∃ hd, disp.layer_head = some hd := by
      cases hh : disp.layer_head with
      | some p => exact ⟨p, rfl⟩
      | none =>
        rw [layer_list, hh] at hlist
        cases init <;> exact absurd hlist (by simp [chain])
    rw [hhd] at hlist
    have hl1 : layer_list (m.set_layer l (sw_layer_new disp.color_format)) (some hd)
        (init ++ [tl]) := by
      refine chain_congr _ _ _ _ hlist ?_
      intro p hp
      have hpl : p ≠ l := fun h => hfresh (h ▸ hp)
      simp [Function.update_noteq hpl]
    have htail := layer_tail_of_chain _ tl init hd fuel hl1 hfuel
    refine ⟨⟨some l, disp, (m.set_layer l (sw_layer_new disp.color_format)).set_layer tl
        { (m.set_layer l (sw_layer_new disp.color_format)).layers tl with next := some l }⟩,
      by simp only [lv_draw_sw_init_ctx, hhd, htail], rfl, ?_, ?_, ?_, ?_, rfl, rfl, rfl, rfl⟩
    · simp only [hhd, List.append_assoc, List.singleton_append]
      refine chain_snoc _ _ tl l init _ hlist ?_ ?_ ?_
      · intro p hp
        have hpl : p ≠ l := fun h => hfresh (by simp [← h, hp])
        have hpt : p ≠ tl := fun h => htl_init (h ▸ hp)
        simp [Function.update_noteq hpl, Function.update_noteq hpt]
      · simp
      · simp [Function.update_noteq htl_l.symm, lv_layer_zero, sw_layer_new]
    · simp [Function.update_noteq htl_l.symm]
    · intro p hp
      by_cases hpt : p = tl
      · subst hpt
        simp [Function.update_noteq hp]
      · simp [Function.update_noteq hp, Function.update_noteq hpt]
    · intro p hp hlast
      have hpt : p ≠ tl := by
        intro h
        apply hlast
        simp [h]
      simp [Function.update_noteq hp, Function.update_noteq hpt]

theorem init_ctx_appends_layer_witness :
    layer_list listed_mem sample_disp.layer_head [3, 5] ∧ 9 ∉ [3, 5] ∧
      ∃ r, lv_draw_sw_init_ctx 2 (some 9) sample_disp listed_mem = some r ∧ r.ret = some 9 ∧
        layer_list r.mem r.disp.layer_head [3, 5, 9] ∧
        (r.mem.layers 9).buf = none ∧ (r.mem.layers 9).color_format = 2 :=
  ⟨by simp [layer_list, chain, listed_mem, sample_disp], by decide,
    (init_ctx_appends_layer 2 9 sample_disp listed_mem [3, 5]
      (by simp [layer_list, chain, listed_mem, sample_disp]) (by decide) (by decide)).imp
      fun _ h => ⟨h.1, h.2.1, h.2.2.1, by rw [h.2.2.2.1], by rw [h.2.2.2.1]; rfl⟩⟩

/-- C17: `lv_draw_sw_deinit_ctx` zeroes the whole layer record (buffer pointer,
areas, colour format, callbacks and `next`) and leaves the display record, every
other layer, the tasks and the units as they were. The layer is not unlinked:
for a display whose layer list is `pre`, then the layer, then `post`, the list
reachable from the head afterwards is `pre` followed by the layer, and no layer
of `post` is on it. -/
theorem deinit_ctx_zeroes_without_unlinking (disp : lv_disp_t) (m : Mem)
    (pre post : List LayerPtr) (li : LayerPtr)
    (hlist : layer_list m disp.layer_head (pre ++ li :: post)) :
    (lv_draw_sw_deinit_ctx disp li m).2.layers li =
        { buf := none
          buf_area := { x1 := 0, y1 := 0, x2 := 0, y2 := 0 }
          clip_area := { x1 := 0, y1 := 0, x2 := 0, y2 := 0 }
          color_format := 0
          buffer_copy := none
          buffer_convert := none
          buffer_clear := none
          next := none } ∧
      (lv_draw_sw_deinit_ctx disp li m).1 = disp ∧
      layer_list (lv_draw_sw_deinit_ctx disp li m).2
        (lv_draw_sw_deinit_ctx disp li m).1.layer_head (pre ++ [li]) ∧
      (∀ p ∈ post, p ∉ pre ++ [li]) ∧
      (∀ p, p ≠ li → (lv_draw_sw_deinit_ctx disp li m).2.layers p = m.layers p) ∧
      (lv_draw_sw_deinit_ctx disp li m).2.tasks = m.tasks ∧
      (lv_draw_sw_deinit_ctx disp li m).2.units = m.units := by
  have hnd := chain_nodup _ _ _ hlist
  have hnd' := List.nodup_append.mp hnd
  have hli_pre : li ∉ pre := fun h => hnd'.2.2 h (List.mem_cons_self _ _)
  have hli_post : li ∉ post := (List.nodup_cons.mp hnd'.2.1).1
  refine ⟨by simp [lv_draw_sw_deinit_ctx, lv_layer_zero, lv_area_zero], rfl, ?_, ?_, ?_, rfl,
    rfl⟩
  · refine chain_cut _ _ li post pre _ hlist ?_ ?_
    · intro p hp
      have hpl : p ≠ li := fun h => hli_pre (h ▸ hp)
      simp [lv_draw_sw_deinit_ctx, Function.update_noteq hpl]
    · simp [lv_draw_sw_deinit_ctx, lv_layer_zero]
  · intro p hp hmem
    rcases List.mem_append.mp hmem with h | h
    · exact hnd'.2.2 h (List.mem_cons_of_mem _ hp)
    · rw [List.mem_singleton] at h
      exact hli_post (h ▸ hp)
  · intro p hp
    simp [lv_draw_sw_deinit_ctx, Function.update_noteq hp]

theorem deinit_ctx_zeroes_without_unlinking_witness :
    layer_list listed_mem sample_disp.layer_head ([] ++ 3 :: [5]) ∧
      ((lv_draw_sw_deinit_ctx sample_disp 3 listed_mem).2.layers 3).next = none ∧
      layer_list (lv_draw_sw_deinit_ctx sample_disp 3 listed_mem).2
        (lv_draw_sw_deinit_ctx sample_disp 3 listed_mem).1.layer_head [3] ∧
      (∀ p ∈ [5], p ∉ [3]) :=
  ⟨by simp [layer_list, chain, listed_mem, sample_disp],
    by rw [(deinit_ctx_zeroes_without_unlinking sample_disp listed_mem [] [5] 3
      (by simp [layer_list, chain, listed_mem, sample_disp])).1],
    (deinit_ctx_zeroes_without_unlinking sample_disp listed_mem [] [5] 3
      (by simp [layer_list, chain, listed_mem, sample_disp])).2.2.1,
    (deinit_ctx_zeroes_without_unlinking sample_disp listed_mem [] [5] 3
      (by simp [layer_list, chain, listed_mem, sample_disp])).2.2.2.1⟩

/-! ## Creating draw units -/

/-- The loop of `lv_draw_unit_sw_create` from pass `i` with `n` passes left, on a
state whose unit list is `us`: the new units are linked in front, newest first,
each with the record of its pass, and nothing else changes. -/
theorem unit_create_loop_spec (env : Env) (alloc : Nat → Option UnitPtr) (new : Nat → UnitPtr)
    (n : Nat) :
    ∀ (i : Nat) (s : UnitCreateState) (us : List UnitPtr),
      unit_list s.mem s.disp.draw_unit_head us →
      (∀ j, i ≤ j → j < i + n → alloc j = some (new j)) →
      (∀ j k, i ≤ j → j < i + n → i ≤ k → k < i + n → new j = new k → j = k) →
      (∀ j, i ≤ j → j < i + n → new j ∉ us) →
      unit_list (unit_create_loop env alloc n i s).mem
          (unit_create_loop env alloc n i s).disp.draw_unit_head
          (((List.range' i n).map new).reverse ++ us) ∧
        (∀ j, i ≤ j → j < i + n →
          (unit_create_loop env alloc n i s).mem.units (new j) =
            sw_unit_new j (if j = i then s.disp.draw_unit_head else some (new (j - 1)))) ∧
        (∀ p, (∀ j, i ≤ j → j < i + n → p ≠ new j) →
          (unit_create_loop env alloc n i s).mem.units p = s.mem.units p) ∧
        (unit_create_loop env alloc n i s).mem.tasks = s.mem.tasks ∧
        (unit_create_loop env alloc n i s).mem.layers = s.mem.layers ∧
        (unit_create_loop env alloc n i s).disp.color_format = s.disp.color_format ∧
        (unit_create_loop env alloc n i s).disp.layer_head = s.disp.layer_head ∧
        (unit_create_loop env alloc n i s).threads =
          s.threads ++
            (if env.LV_USE_OS then (List.range' i n).map (fun j => some (new j)) else []) := by
  induction n with
  | zero =>
    intro i s us hl _ _ _
    refine ⟨by simpa [unit_create_loop] using hl, ?_, ?_, rfl, rfl, rfl, rfl, ?_⟩
    · intro j h1 h2; omega
    · intro p _; rfl
    · simp [unit_create_loop]
  | succ n ih =>
    intro i s us hl halloc hinj hfresh
    have hai : alloc i = some (new i) := halloc i le_rfl (by omega)
    have hlist1 : unit_list (s.mem.set_unit (new i) (sw_unit_new i s.disp.draw_unit_head))
        (some (new i)) (new i :: us) := by
      simp only [unit_list, chain, set_unit_units, Function.update_same, true_and]
      have hnext : (sw_unit_new i s.disp.draw_unit_head).base_unit.next =
          s.disp.draw_unit_head := rfl
      rw [hnext]
      refine chain_congr _ _ _ _ hl ?_
      intro p hp
      have hpn : p ≠ new i := fun h => hfresh i le_rfl (by omega) (h ▸ hp)
      simp [Function.update_noteq hpn]
    obtain ⟨h1, h2, h3, h4, h5, h6, h7, h8⟩ := ih (i + 1)
      { disp := { s.disp with draw_unit_head := some (new i) }
        mem := s.mem.set_unit (new i) (sw_unit_new i s.disp.draw_unit_head)
        threads := s.threads ++ (if env.LV_USE_OS then [some (new i)] else []) }
      (new i :: us) hlist1
      (fun j hj1 hj2 => halloc j (by omega) (by omega))
      (fun j k hj1 hj2 hk1 hk2 => hinj j k (by omega) (by omega) (by omega) (by omega))
      (by
        intro j hj1 hj2 hmem
        rcases List.mem_cons.mp hmem with h | h
        · have := hinj j i (by omega) (by omega) le_rfl (by omega) h
          omega
        · exact hfresh j (by omega) (by omega) h)
    simp only [unit_create_loop, hai]
    refine ⟨?_, ?_, ?_, h4, h5, h6, h7, ?_⟩
    · have : ((List.range' i (n + 1)).map new).reverse ++ us =
          ((List.range' (i + 1) n).map new).reverse ++ new i :: us := by
        simp [List.range'_succ]
      rw [this]
      exact h1
    · intro j hj1 hj2
      by_cases hji : j = i
      · subst hji
        rw [h3 (new j) (fun k hk1 hk2 h => by
          have := hinj j k le_rfl (by omega) (by omega) (by omega) h
          omega)]
        simp
      · rw [h2 j (by omega) (by omega), if_neg hji]
        by_cases hj : j = i + 1
        · subst hj; simp
        · rw [if_neg hj]
    · intro p hp
      rw [h3 p (fun j hj1 hj2 => hp j (by omega) (by omega))]
      have hpi : p ≠ new i := hp i le_rfl (by omega)
      simp [Function.update_noteq hpi]
    · rw [h8]
      cases env.LV_USE_OS <;> simp [List.range'_succ]

/-- C12: for a display whose unit list is `us`, `lv_draw_unit_sw_create(disp,
cnt)` (given `cnt` distinct fresh blocks `new 0 .. new (cnt - 1)` by the
allocator) leaves the unit list equal to `new (cnt - 1), ..., new 1, new 0`
followed by `us`. Unit `new i` has `idx = i`, `task_act = NULL` and
`lv_draw_sw_dispatch` as dispatch entry point; every other unit, and so every
unit of `us`, is unchanged, as are tasks, layers and the other fields of the
display; with `cnt = 0` display and heap are unchanged. -/
theorem unit_sw_create_prepends_units (env : Env) (alloc : Nat → Option UnitPtr)
    (new : Nat → UnitPtr) (disp : lv_disp_t) (cnt : Nat) (m : Mem) (us : List UnitPtr)
    (hlist : unit_list m disp.draw_unit_head us)
    (halloc : ∀ i, i < cnt → alloc i = some (new i))
    (hinj : ∀ i j, i < cnt → j < cnt → new i = new j → i = j)
    (hfresh : ∀ i, i < cnt → new i ∉ us) :
    unit_list (lv_draw_unit_sw_create env alloc disp cnt m).mem
        (lv_draw_unit_sw_create env alloc disp cnt m).disp.draw_unit_head
        (((List.range cnt).map new).reverse ++ us) ∧
      (((List.range cnt).map new).reverse ++ us).length = cnt + us.length ∧
      (∀ i, i < cnt →
        ((lv_draw_unit_sw_create env alloc disp cnt m).mem.units (new i)).idx = i ∧
        ((lv_draw_unit_sw_create env alloc disp cnt m).mem.units (new i)).task_act = none ∧
        ((lv_draw_unit_sw_create env alloc disp cnt m).mem.units (new i)).base_unit.dispatch =
          some DispatchFn.lv_draw_sw_dispatch) ∧
      (∀ p, (∀ i, i < cnt → p ≠ new i) →
        (lv_draw_unit_sw_create env alloc disp cnt m).mem.units p = m.units p) ∧
      (∀ p ∈ us, (lv_draw_unit_sw_create env alloc disp cnt m).mem.units p = m.units p) ∧
      (lv_draw_unit_sw_create env alloc disp cnt m).mem.tasks = m.tasks ∧
      (lv_draw_unit_sw_create env alloc disp cnt m).mem.layers = m.layers ∧
      (lv_draw_unit_sw_create env alloc disp cnt m).disp.color_format = disp.color_format ∧
      (lv_draw_unit_sw_create env alloc disp cnt m).disp.layer_head = disp.layer_head ∧
      (cnt = 0 → (lv_draw_unit_sw_create env alloc disp cnt m).disp = disp ∧
        (lv_draw_unit_sw_create env alloc disp cnt m).mem = m) := by
  obtain ⟨h1, h2, h3, h4, h5, h6, h7, _⟩ := unit_create_loop_spec env alloc new cnt 0
    { disp := disp, mem := m, threads := [] } us hlist
    (fun j _ hj => halloc j (by omega))
    (fun j k _ hj _ hk => hinj j k (by omega) (by omega))
    (fun j _ hj => hfresh j (by omega))
  refine ⟨?_, by simp, ?_, ?_, ?_, h4, h5, h6, h7, ?_⟩
  · rw [List.range_eq_range']
    exact h1
  · intro i hi
    have := h2 i (Nat.zero_le _) (by omega)
    unfold lv_draw_unit_sw_create
    rw [this]
    exact ⟨rfl, rfl, rfl⟩
  · intro p hp
    exact h3 p (fun j _ hj => hp j (by omega))
  · intro p hp
    exact h3 p (fun j _ hj h => hfresh j (by omega) (h ▸ hp))
  · intro h0
    subst h0
    exact ⟨rfl, rfl⟩

theorem unit_sw_create_prepends_units_witness :
    unit_list listed_mem sample_disp.draw_unit_head [1, 4] ∧
      unit_list
        (lv_draw_unit_sw_create (sample_env true) (fun i => some (10 + i)) sample_disp 2
          listed_mem).mem
        (lv_draw_unit_sw_create (sample_env true) (fun i => some (10 + i)) sample_disp 2
          listed_mem).disp.draw_unit_head
        [11, 10, 1, 4] :=
  ⟨by simp [unit_list, chain, listed_mem, sample_disp, sample_mem],
    (unit_sw_create_prepends_units (sample_env true) (fun i => some (10 + i))
      (fun i => 10 + i) sample_disp 2 listed_mem [1, 4]
      (by simp [unit_list, chain, listed_mem, sample_disp, sample_mem])
      (fun _ _ => rfl) (fun i j _ _ h => Nat.add_left_cancel h)
      (by decide)).1⟩

/-! ## Buffer copy and buffer clear on concrete buffers -/

/-- C13, the code at the failing input: two bytes per pixel, buffers of two by
two pixels with a stride of two pixels, both areas the whole buffer. The first
row is copied, but after it the cursors advance by the stride in pixels (2
bytes) instead of a row (4 bytes): bytes 6 and 7, the pixel at offset (1, 1),
keep their old value 9 where the source has 7 and 8. With one byte per pixel
the same routine copies a two by two area at different offsets correctly. -/
theorem buffer_copy_advances_rows_by_pixel_stride :
    lv_draw_sw_buffer_copy two_byte_env (sample_mem.layers 0)
        [9, 9, 9, 9, 9, 9, 9, 9] 2 { x1 := 0, y1 := 0, x2 := 1, y2 := 1 }
        [1, 2, 3, 4, 5, 6, 7, 8] 2 { x1 := 0, y1 := 0, x2 := 1, y2 := 1 } =
      [1, 2, 3, 4, 5, 6, 9, 9] ∧
    lv_draw_sw_buffer_copy (sample_env false) (sample_mem.layers 0)
        [9, 9, 9, 9, 9, 9, 9, 9] 4 { x1 := 1, y1 := 0, x2 := 2, y2 := 1 }
        [1, 2, 3, 4, 5, 6, 7, 8] 4 { x1 := 2, y1 := 0, x2 := 3, y2 := 1 } =
      [9, 3, 4, 9, 9, 7, 8, 9] := by
  constructor <;> decide

/-- C15, the code at the failing input: a two by two buffer of one byte pixels,
every byte 7, with the right column as clip area. The pixels of the clip area
are bytes 1 and 3; `lv_draw_sw_buffer_clear` takes the width of the clip area
(1) as row stride and zeroes bytes 1 and 2: byte 2 lies outside the clip area
and is cleared, byte 3 lies inside and is not. -/
theorem buffer_clear_uses_clip_width_as_stride :
    column_layer.buf = some [7, 7, 7, 7] ∧
      lv_draw_sw_buffer_clear (sample_env false) column_layer =
        Except.ok { column_layer with buf := some [7, 0, 0, 7] } :=
  ⟨rfl, rfl⟩

/-! ## Tasks of an unknown type -/

/-- Completion of a task writes no layer. -/
theorem finish_task_layers (u : UnitPtr) (m : Mem) : (finish_task u m).layers = m.layers := by
  unfold finish_task
  split <;> rfl

/-- Renderer selection for a tag outside the four known ones: no call, no change. -/
theorem exectue_drawing_other (env : Env) (u : UnitPtr) (m : Mem) (t : TaskPtr) (tag : Nat)
    (ht : (m.units u).task_act = some t)
    (hty : (m.tasks t).type = lv_draw_task_type_t.OTHER tag) :
    exectue_drawing env u m = (m, []) := by
  simp [exectue_drawing, ht, hty]

/-- The allocation step does not depend on `LV_USE_OS`. -/
theorem dispatch_alloc_os (env : Env) (b : Bool) (l : LayerPtr) (m : Mem) :
    dispatch_alloc { env with LV_USE_OS := b } l m = dispatch_alloc env l m := rfl

/-- Renderer selection does not depend on `LV_USE_OS`. -/
theorem exectue_drawing_os (env : Env) (b : Bool) (u : UnitPtr) (m : Mem) :
    exectue_drawing { env with LV_USE_OS := b } u m = exectue_drawing env u m := rfl

/-- `exectue_drawing` makes at most one external call. -/
theorem exectue_drawing_events_le_one (env : Env) (u : UnitPtr) (m : Mem) :
    (exectue_drawing env u m).2.length ≤ 1 := by
  unfold exectue_drawing
  split
  · simp
  · split <;> simp [call_renderer]

/-- Every external call of `exectue_drawing` is a renderer call. -/
theorem exectue_drawing_events_render (env : Env) (u : UnitPtr) (m : Mem) :
    ∀ e ∈ (exectue_drawing env u m).2,
      e.is_render = true ∧ e.is_dispatch_request = false ∧ e.is_sync_signal = false := by
  intro e he
  obtain ⟨r0, t0, _, he0⟩ := exectue_drawing_events env u m e he
  rw [he0]
  exact ⟨rfl, rfl, rfl⟩

/-- A worker pass with a task assigned, spelled out. -/
theorem render_thread_cb_events (env : Env) (u : UnitPtr) (m : Mem) (t : TaskPtr)
    (ht : (m.units u).task_act = some t) :
    (render_thread_cb env u m).2 =
      (exectue_drawing env u m).2 ++ [Event.lv_draw_dispatch_request (render_thread_cb env u m).1] := by
  simp [render_thread_cb, ht]

end LvDrawSw
